import Mathlib

/-!
Verification of the econophysics repository's core algorithms.

Part 1: the lagged price-impact response estimator
(`src/taq_responses_time_short_long/taq_algorithms/taq_data_analysis.py`).
Midpoint prices and trade signs are embedded as lists of rationals (the
source stores IEEE doubles; every claim proved here is about the exact
arithmetic structure of the computation, which is identical).

Python/numpy slicing conventions used by the source are reproduced by
explicit helpers: `xs[a : -b]` is `npSliceFromToNeg xs a b`, `xs[:-b]` is
`npSliceToNeg xs b` (empty when `b = 0`, exactly as in Python), and the
numpy slice assignment `xs[:k] = v * ones(k)` is `npWriteFirst xs k v`.
-/

/-- Python slice `xs[a : -b]` (with `a, b ≥ 0`): for `b = 0` the stop index
is `0`, so the slice is empty; otherwise it runs from `a` to `len - b`,
clamped the way Python clamps. -/
def npSliceFromToNeg (xs : List α) (a b : ℕ) : List α :=
  if b = 0 then [] else (xs.drop a).take (xs.length - b - a)

/-- Python slice `xs[:-b]`. -/
def npSliceToNeg (xs : List α) (b : ℕ) : List α :=
  npSliceFromToNeg xs 0 b

/-- numpy slice assignment `xs[:k] = v * np.ones(k)` — overwrite the first
`k` entries (the source only uses it with `k ≤ xs.length`, where numpy
broadcasting succeeds). -/
def npWriteFirst (xs : List α) (k : ℕ) (v : α) : List α :=
  List.replicate (min k xs.length) v ++ xs.drop k

theorem npWriteFirst_length (xs : List α) (k : ℕ) (v : α) :
    (npWriteFirst xs k v).length = xs.length := by
  simp only [npWriteFirst, List.length_append, List.length_replicate, List.length_drop]
  omega

theorem npWriteFirst_getElem (xs : List α) (k : ℕ) (v : α) (t : ℕ)
    (hk : k ≤ xs.length) :
    (npWriteFirst xs k v).getD t v₀ = if t < k then v else xs.getD t v₀ := by
  simp only [npWriteFirst]
  have hmin : min k xs.length = k := Nat.min_eq_left hk
  by_cases h : t < k
  · rw [if_pos h, List.getD_eq_getElem?_getD, List.getElem?_append_left (by simpa [hmin]),
      List.getElem?_replicate]
    simp [h, hmin]
  · rw [if_neg h, List.getD_eq_getElem?_getD, List.getElem?_append_right (by simp [hmin]; omega)]
    simp only [List.length_replicate, hmin, List.getElem?_drop, List.getD_eq_getElem?_getD]
    congr 2
    omega

theorem npWriteFirst_all (xs : List α) (v : α) :
    npWriteFirst xs xs.length v = List.replicate xs.length v := by
  simp [npWriteFirst]

/-- The full-prefix write used when `tau_p + 1 = tau`. -/
theorem npWriteFirst_replicate_all (n : ℕ) (x v : α) :
    npWriteFirst (List.replicate n x) n v = List.replicate n v := by
  have := npWriteFirst_all (List.replicate n x) v
  simpa using this

/-! ### Shared short-lag / long-lag quantities

These transcribe, slice for slice, the expressions of
`taq_self_response_day_time_short_long_tau_data` (lines 89–133 of
`taq_data_analysis.py`); the cross-response function (lines 249–291) has the
identical body. -/

/-- `trade_sign[:-tau_p]`. -/
def taqShortSlice (tradeSign : List ℚ) (tauP : ℕ) : List ℚ :=
  npSliceToNeg tradeSign tauP

/-- `len(trade_sign_tau_short[trade_sign_tau_short != 0])`. -/
def taqShortCount (tradeSign : List ℚ) (tauP : ℕ) : ℕ :=
  (taqShortSlice tradeSign tauP).countP (fun s => decide (s ≠ 0))

/-- `(midpoint[tau_p:] - midpoint[:-tau_p]) / midpoint[:-tau_p]`. -/
def taqShortReturn (midpoint : List ℚ) (tauP : ℕ) : List ℚ :=
  List.zipWith (fun a b => (a - b) / b) (midpoint.drop tauP) (npSliceToNeg midpoint tauP)

/-- `np.sum(log_return_sec_short * trade_sign_tau_short)`. -/
def taqShortSum (midpoint tradeSign : List ℚ) (tauP : ℕ) : ℚ :=
  (List.zipWith (· * ·) (taqShortReturn midpoint tauP) (taqShortSlice tradeSign tauP)).sum

/-- `trade_sign[tau_p : -tau_idx - 1]`. -/
def taqLongSlice (tradeSign : List ℚ) (tauP t : ℕ) : List ℚ :=
  npSliceFromToNeg tradeSign tauP (t + 1)

/-- `len(trade_sign_tau_long[trade_sign_tau_long != 0])`. -/
def taqLongCount (tradeSign : List ℚ) (tauP t : ℕ) : ℕ :=
  (taqLongSlice tradeSign tauP t).countP (fun s => decide (s ≠ 0))

/-- `(midpoint[tau_idx + 1 : -tau_p] - midpoint[tau_p : -tau_idx - 1]) /
midpoint[tau_p : -tau_idx - 1]`. -/
def taqLongReturn (midpoint : List ℚ) (tauP t : ℕ) : List ℚ :=
  List.zipWith (fun a b => (a - b) / b)
    (npSliceFromToNeg midpoint (t + 1) tauP) (npSliceFromToNeg midpoint tauP (t + 1))

/-- `np.sum(product_long)` for lag `t`. -/
def taqLongSum (midpoint tradeSign : List ℚ) (tauP t : ℕ) : ℚ :=
  (List.zipWith (· * ·) (taqLongReturn midpoint tauP t) (taqLongSlice tradeSign tauP t)).sum

/-- One iteration of the `for tau_idx in range(tau)` loop of the day-level
estimator. State is the pair `(self_response, num)`. `pOpt` is
`np.sum(product_short)` when `product_short` was assigned (short non-zero
count ≠ 0) and `none` otherwise; referencing it while unassigned is Python's
`NameError`, modelled by returning `none`. -/
def taqLongStep (midpoint tradeSign : List ℚ) (tauP cShort : ℕ) (pOpt : Option ℚ)
    (st : List ℚ × List ℚ) (t : ℕ) : Option (List ℚ × List ℚ) :=
  if t ≤ tauP then some st
  else
    if taqLongCount tradeSign tauP t ≠ 0 then
      match pOpt with
      | none => none
      | some p => some (st.1.set t (taqLongSum midpoint tradeSign tauP t + p),
          st.2.set t ((taqLongCount tradeSign tauP t : ℚ) + (cShort : ℚ)))
    else some (st.1, st.2.set t ((taqLongCount tradeSign tauP t : ℚ) + (cShort : ℚ)))

/-- Total version of `taqLongStep`, taking the short product as a plain
value; it agrees with `taqLongStep` whenever the latter succeeds. -/
def taqLongStepF (midpoint tradeSign : List ℚ) (tauP cShort : ℕ) (pS : ℚ)
    (st : List ℚ × List ℚ) (t : ℕ) : List ℚ × List ℚ :=
  if t ≤ tauP then st
  else
    if taqLongCount tradeSign tauP t ≠ 0 then
      (st.1.set t (taqLongSum midpoint tradeSign tauP t + pS),
       st.2.set t ((taqLongCount tradeSign tauP t : ℚ) + (cShort : ℚ)))
    else (st.1, st.2.set t ((taqLongCount tradeSign tauP t : ℚ) + (cShort : ℚ)))

/-- Initial response array of the day-level estimator (before the long-lag
loop): `np.zeros(tau)` with `np.sum(product_short)` broadcast into slots
`0..τp` when the short non-zero count is non-zero (source lines 105–107),
untouched zeros otherwise. -/
def taqRespInit (midpoint tradeSign : List ℚ) (tau tauP : ℕ) : List ℚ :=
  if taqShortCount tradeSign tauP ≠ 0
  then npWriteFirst (List.replicate tau 0) (tauP + 1) (taqShortSum midpoint tradeSign tauP)
  else List.replicate tau 0

/-- The common body of `taq_self_response_day_time_short_long_tau_data` and
`taq_cross_response_day_time_short_long_tau_data` once the per-second
midpoint and trade-sign series are loaded (`taq_data_analysis.py`,
lines 83–135 / 243–293). Returns `none` when the code raises: the
`assert len(midpoint) == len(trade_sign)` failing, or `product_short` being
referenced while unassigned (`NameError`). -/
def taq_response_day_core (midpoint tradeSign : List ℚ) (tau tauP : ℕ) :
    Option (List ℚ × List ℚ) :=
  if midpoint.length = tradeSign.length then
    (List.range tau).foldlM
      (taqLongStep midpoint tradeSign tauP (taqShortCount tradeSign tauP)
        (if taqShortCount tradeSign tauP ≠ 0
         then some (taqShortSum midpoint tradeSign tauP) else none))
      (taqRespInit midpoint tradeSign tau tauP,
       npWriteFirst (List.replicate tau 0) (tauP + 1) ((taqShortCount tradeSign tauP : ℚ)))
  else none

theorem getD_set_self (l : List α) (i : ℕ) (v d : α) (h : i < l.length) :
    (l.set i v).getD i d = v := by
  rw [List.getD_eq_getElem?_getD, List.getElem?_set_self h]
  rfl

theorem getD_set_ne (l : List α) {i j : ℕ} (v d : α) (h : i ≠ j) :
    (l.set i v).getD j d = l.getD j d := by
  rw [List.getD_eq_getElem?_getD, List.getElem?_set_ne h, ← List.getD_eq_getElem?_getD]

/-- Every element of the long-lag sign slice also lies in the short-lag sign
slice (for `1 ≤ τp < τ`), so a non-zero sign at a long lag forces a non-zero
short count: the guarded `product_short` is always assigned before the long
branch reads it, and the `NameError` path is unreachable. -/
theorem taqShortCount_pos (tradeSign : List ℚ) (tauP t : ℕ)
    (hp : 1 ≤ tauP) (ht : tauP < t) (h : taqLongCount tradeSign tauP t ≠ 0) :
    taqShortCount tradeSign tauP ≠ 0 := by
  have h' : 0 < taqLongCount tradeSign tauP t := Nat.pos_of_ne_zero h
  unfold taqLongCount at h'
  rw [List.countP_pos_iff] at h'
  obtain ⟨x, hx, px⟩ := h'
  have hx' : x ∈ taqShortSlice tradeSign tauP := by
    unfold taqLongSlice npSliceFromToNeg at hx
    rw [if_neg (Nat.succ_ne_zero t)] at hx
    unfold taqShortSlice npSliceToNeg npSliceFromToNeg
    rw [if_neg (by omega)]
    simp only [List.drop_zero, Nat.sub_zero]
    have hrw : (tradeSign.drop tauP).take (tradeSign.length - (t + 1) - tauP)
        = ((tradeSign.take (tradeSign.length - tauP)).drop tauP).take
            (tradeSign.length - (t + 1) - tauP) := by
      rw [List.drop_take, List.take_take]
      congr 1
      omega
    rw [hrw] at hx
    exact List.mem_of_mem_drop (List.mem_of_mem_take hx)
  intro h0
  unfold taqShortCount at h0
  rw [List.countP_eq_zero] at h0
  exact (h0 x hx') px

/-- The guarded loop step always succeeds and agrees with its total
version, provided `0 < τp` (the source's contract). -/
theorem taqLongStep_eq (midpoint tradeSign : List ℚ) (tauP : ℕ) (hp : 1 ≤ tauP)
    (st : List ℚ × List ℚ) (t : ℕ) :
    taqLongStep midpoint tradeSign tauP (taqShortCount tradeSign tauP)
      (if taqShortCount tradeSign tauP ≠ 0
       then some (taqShortSum midpoint tradeSign tauP) else none) st t
    = some (taqLongStepF midpoint tradeSign tauP (taqShortCount tradeSign tauP)
        (taqShortSum midpoint tradeSign tauP) st t) := by
  unfold taqLongStep taqLongStepF
  by_cases h1 : t ≤ tauP
  · simp [h1]
  · rw [if_neg h1, if_neg h1]
    by_cases h2 : taqLongCount tradeSign tauP t ≠ 0
    · have hcs := taqShortCount_pos tradeSign tauP t hp (by omega) h2
      rw [if_pos h2, if_pos hcs, if_pos h2]
    · rw [if_neg h2, if_neg h2]

theorem foldlM_eq_foldl {α β : Type} (f : α → β → Option α) (g : α → β → α)
    (hfg : ∀ a b, f a b = some (g a b)) :
    ∀ (l : List β) (a : α), l.foldlM f a = some (l.foldl g a) := by
  intro l
  induction l with
  | nil => intro a; rfl
  | cons x xs ih =>
    intro a
    rw [List.foldlM_cons, hfg]
    show List.foldlM f (g a x) xs = _
    rw [ih (g a x), List.foldl_cons]

theorem taqLongStepF_len_fst (midpoint tradeSign : List ℚ) (tauP cS : ℕ) (pS : ℚ)
    (st : List ℚ × List ℚ) (t : ℕ) :
    (taqLongStepF midpoint tradeSign tauP cS pS st t).1.length = st.1.length ∧
    (taqLongStepF midpoint tradeSign tauP cS pS st t).2.length = st.2.length := by
  unfold taqLongStepF
  by_cases h1 : t ≤ tauP
  · rw [if_pos h1]
    exact ⟨rfl, rfl⟩
  · rw [if_neg h1]
    by_cases h2 : taqLongCount tradeSign tauP t ≠ 0
    · rw [if_pos h2]
      exact ⟨List.length_set .., List.length_set ..⟩
    · rw [if_neg h2]
      exact ⟨rfl, List.length_set ..⟩

theorem taqLongLoop_len (midpoint tradeSign : List ℚ) (tauP cS : ℕ) (pS : ℚ) :
    ∀ (n a : ℕ) (st : List ℚ × List ℚ),
      ((List.range' a n).foldl (taqLongStepF midpoint tradeSign tauP cS pS) st).1.length
        = st.1.length ∧
      ((List.range' a n).foldl (taqLongStepF midpoint tradeSign tauP cS pS) st).2.length
        = st.2.length := by
  intro n
  induction n with
  | zero => intro a st; simp
  | succ n ih =>
    intro a st
    rw [List.range'_succ, List.foldl_cons]
    obtain ⟨h1, h2⟩ := ih (a + 1) (taqLongStepF midpoint tradeSign tauP cS pS st a)
    obtain ⟨g1, g2⟩ := taqLongStepF_len_fst midpoint tradeSign tauP cS pS st a
    exact ⟨h1.trans g1, h2.trans g2⟩

/-- Value of the response array after the long-lag loop: each loop pass
writes only its own lag slot, so slot `t` holds the long-plus-short sum
exactly when lag `t` was visited, lies beyond `τp`, and its long slice
contains a non-zero sign; otherwise the initial value survives. -/
theorem taqLongLoop_fst_getD (midpoint tradeSign : List ℚ) (tauP cS : ℕ) (pS : ℚ) :
    ∀ (n a : ℕ) (st : List ℚ × List ℚ) (t : ℕ), t < st.1.length →
      ((List.range' a n).foldl (taqLongStepF midpoint tradeSign tauP cS pS) st).1.getD t 0
      = if a ≤ t ∧ t < a + n ∧ tauP < t ∧ taqLongCount tradeSign tauP t ≠ 0
        then taqLongSum midpoint tradeSign tauP t + pS
        else st.1.getD t 0 := by
  intro n
  induction n with
  | zero =>
    intro a st t ht
    rw [if_neg (by omega)]
    simp
  | succ n ih =>
    intro a st t ht
    rw [List.range'_succ, List.foldl_cons]
    have hlen := (taqLongStepF_len_fst midpoint tradeSign tauP cS pS st a).1
    rw [ih (a + 1) _ t (by omega)]
    by_cases hta : t = a
    · subst hta
      rw [if_neg (by omega)]
      unfold taqLongStepF
      by_cases h1 : t ≤ tauP
      · rw [if_pos h1, if_neg (by omega)]
      · rw [if_neg h1]
        by_cases h2 : taqLongCount tradeSign tauP t ≠ 0
        · rw [if_pos h2, if_pos ⟨le_refl t, by omega, by omega, h2⟩]
          exact getD_set_self _ _ _ _ ht
        · rw [if_neg h2, if_neg (fun hcon => h2 hcon.2.2.2)]
    · have hval : (taqLongStepF midpoint tradeSign tauP cS pS st a).1.getD t 0
          = st.1.getD t 0 := by
        unfold taqLongStepF
        by_cases h1 : a ≤ tauP
        · rw [if_pos h1]
        · rw [if_neg h1]
          by_cases h2 : taqLongCount tradeSign tauP a ≠ 0
          · rw [if_pos h2]
            exact getD_set_ne _ _ _ (fun h => hta h.symm)
          · rw [if_neg h2]
      rw [hval]
      by_cases hc : a + 1 ≤ t ∧ t < a + 1 + n ∧ tauP < t ∧ taqLongCount tradeSign tauP t ≠ 0
      · rw [if_pos hc, if_pos ⟨by omega, by omega, hc.2.2.1, hc.2.2.2⟩]
      · rw [if_neg hc, if_neg (by
          intro hcon
          exact hc ⟨by omega, by omega, hcon.2.2.1, hcon.2.2.2⟩)]

/-- Value of the count array after the long-lag loop: slot `t` is
unconditionally overwritten with long count + short count on its pass. -/
theorem taqLongLoop_snd_getD (midpoint tradeSign : List ℚ) (tauP cS : ℕ) (pS : ℚ) :
    ∀ (n a : ℕ) (st : List ℚ × List ℚ) (t : ℕ), t < st.2.length →
      ((List.range' a n).foldl (taqLongStepF midpoint tradeSign tauP cS pS) st).2.getD t 0
      = if a ≤ t ∧ t < a + n ∧ tauP < t
        then ((taqLongCount tradeSign tauP t : ℚ) + (cS : ℚ))
        else st.2.getD t 0 := by
  intro n
  induction n with
  | zero =>
    intro a st t ht
    rw [if_neg (by omega)]
    simp
  | succ n ih =>
    intro a st t ht
    rw [List.range'_succ, List.foldl_cons]
    have hlen := (taqLongStepF_len_fst midpoint tradeSign tauP cS pS st a).2
    rw [ih (a + 1) _ t (by omega)]
    by_cases hta : t = a
    · subst hta
      rw [if_neg (by omega)]
      unfold taqLongStepF
      by_cases h1 : t ≤ tauP
      · rw [if_pos h1, if_neg (by omega)]
      · rw [if_neg h1]
        by_cases h2 : taqLongCount tradeSign tauP t ≠ 0
        · rw [if_pos h2, if_pos ⟨le_refl t, by omega, by omega⟩]
          exact getD_set_self _ _ _ _ ht
        · rw [if_neg h2, if_pos ⟨le_refl t, by omega, by omega⟩]
          exact getD_set_self _ _ _ _ ht
    · have hval : (taqLongStepF midpoint tradeSign tauP cS pS st a).2.getD t 0
          = st.2.getD t 0 := by
        unfold taqLongStepF
        by_cases h1 : a ≤ tauP
        · rw [if_pos h1]
        · rw [if_neg h1]
          by_cases h2 : taqLongCount tradeSign tauP a ≠ 0
          · rw [if_pos h2]
            exact getD_set_ne _ _ _ (fun h => hta h.symm)
          · rw [if_neg h2]
            exact getD_set_ne _ _ _ (fun h => hta h.symm)
      rw [hval]
      by_cases hc : a + 1 ≤ t ∧ t < a + 1 + n ∧ tauP < t
      · rw [if_pos hc, if_pos ⟨by omega, by omega, hc.2.2⟩]
      · rw [if_neg hc, if_neg (by
          intro hcon
          exact hc ⟨by omega, by omega, hcon.2.2⟩)]

/-- Under the source's contract (`0 < τp`, equal-length inputs) the
day-level estimator never raises: it reduces to the total fold. -/
theorem taq_response_day_core_eq (midpoint tradeSign : List ℚ) (tau tauP : ℕ)
    (hlen : midpoint.length = tradeSign.length) (hp : 1 ≤ tauP) :
    taq_response_day_core midpoint tradeSign tau tauP =
      some ((List.range tau).foldl
        (taqLongStepF midpoint tradeSign tauP (taqShortCount tradeSign tauP)
          (taqShortSum midpoint tradeSign tauP))
        (taqRespInit midpoint tradeSign tau tauP,
         npWriteFirst (List.replicate tau 0) (tauP + 1) ((taqShortCount tradeSign tauP : ℚ)))) := by
  unfold taq_response_day_core
  rw [if_pos hlen]
  exact foldlM_eq_foldl _ _ (taqLongStep_eq midpoint tradeSign tauP hp) _ _

theorem getD_replicate_self (n t : ℕ) (x : α) :
    (List.replicate n x).getD t x = x := by
  rw [List.getD_eq_getElem?_getD, List.getElem?_replicate]
  split <;> rfl

theorem taqRespInit_length (midpoint tradeSign : List ℚ) (tau tauP : ℕ) :
    (taqRespInit midpoint tradeSign tau tauP).length = tau := by
  unfold taqRespInit
  split
  · rw [npWriteFirst_length, List.length_replicate]
  · exact List.length_replicate ..

theorem taqRespInit_getD_of_gt (midpoint tradeSign : List ℚ) (tau tauP t : ℕ)
    (ht : tauP < t) (htau : tauP + 1 ≤ tau) :
    (taqRespInit midpoint tradeSign tau tauP).getD t 0 = 0 := by
  unfold taqRespInit
  split
  · rw [npWriteFirst_getElem _ _ _ _ (by simpa using htau), if_neg (by omega)]
    exact getD_replicate_self ..
  · exact getD_replicate_self ..

theorem foldl_fixed {β : Type} (g : α → β → α) (l : List β) (st : α)
    (h : ∀ s t, t ∈ l → g s t = s) : l.foldl g st = st := by
  induction l generalizing st with
  | nil => rfl
  | cons x xs ih =>
    rw [List.foldl_cons, h st x (List.mem_cons_self x xs)]
    exact ih st (fun s t htl => h s t (List.mem_cons_of_mem x htl))

theorem sum_zipWith_right_zero :
    ∀ (xs ys : List ℚ), (∀ y ∈ ys, y = 0) → (List.zipWith (· * ·) xs ys).sum = 0 := by
  intro xs
  induction xs with
  | nil => intro ys _; rfl
  | cons x xs ih =>
    intro ys hy
    cases ys with
    | nil => rfl
    | cons y ys =>
      rw [List.zipWith_cons_cons, List.sum_cons, hy y (List.mem_cons_self y ys), mul_zero,
        zero_add]
      exact ih ys (fun z hz => hy z (List.mem_cons_of_mem y hz))

/-- When the short slice carries no non-zero sign, the short product sums to
zero (every summand has a zero sign factor). -/
theorem taqShortSum_of_count_zero (midpoint tradeSign : List ℚ) (tauP : ℕ)
    (h : taqShortCount tradeSign tauP = 0) :
    taqShortSum midpoint tradeSign tauP = 0 := by
  unfold taqShortCount at h
  rw [List.countP_eq_zero] at h
  unfold taqShortSum
  exact sum_zipWith_right_zero _ _ (fun y hy => by
    have := h y hy
    simpa using this)

/-- C7: with `τp = τmax − 1` the long-lag branch (`tau_idx > tau_p`) is never
entered, so the estimator returns the short-lag scalar and short count
broadcast into every one of the `τmax` slots. -/
theorem C7_short_lag_roundtrip (midpoint tradeSign : List ℚ) (tauP : ℕ)
    (hlen : midpoint.length = tradeSign.length) (hp : 1 ≤ tauP) :
    taq_response_day_core midpoint tradeSign (tauP + 1) tauP =
      some (List.replicate (tauP + 1) (taqShortSum midpoint tradeSign tauP),
            List.replicate (tauP + 1) ((taqShortCount tradeSign tauP : ℚ))) := by
  rw [taq_response_day_core_eq midpoint tradeSign (tauP + 1) tauP hlen hp]
  rw [foldl_fixed _ _ _ (fun s t htl => by
    unfold taqLongStepF
    rw [if_pos (by
      have := List.mem_range.mp htl
      omega)])]
  congr 1
  rw [Prod.mk.injEq]
  constructor
  · unfold taqRespInit
    by_cases hcs : taqShortCount tradeSign tauP ≠ 0
    · rw [if_pos hcs]
      exact npWriteFirst_replicate_all ..
    · rw [if_neg hcs]
      rw [taqShortSum_of_count_zero midpoint tradeSign tauP (by omega)]
  · exact npWriteFirst_replicate_all ..

/-- Witness for C7 at a concrete input: `τmax = 2`, `τp = 1`, three seconds
of data; both response slots hold the short scalar (here `0`), both count
slots the short count (here `2`). -/
theorem C7_short_lag_roundtrip_witness :
    taq_response_day_core [1, 2, 4] [1, -1, 0] (1 + 1) 1 =
      some (List.replicate (1 + 1) (taqShortSum [1, 2, 4] [1, -1, 0] 1),
            List.replicate (1 + 1) ((taqShortCount [1, -1, 0] 1 : ℚ))) :=
  C7_short_lag_roundtrip [1, 2, 4] [1, -1, 0] 1 (by norm_num) (by norm_num)

/-- C1 (amended): at a long lag `τp < τ < τmax` the count slot always holds
long-slice count + short count, but the response slot holds
`Σ(long log-return × sign) + product_short` only when the long slice
contains a non-zero sign; otherwise the slot keeps its initial `0` and the
short-lag product is **not** included (the guarded assignment at source
line 131–133 is skipped). -/
theorem C1_long_lag_response (midpoint tradeSign : List ℚ) (tau tauP t : ℕ)
    (R N : List ℚ)
    (hres : taq_response_day_core midpoint tradeSign tau tauP = some (R, N))
    (hp : 1 ≤ tauP) (ht1 : tauP < t) (ht2 : t < tau)
    (hlen : midpoint.length = tradeSign.length) :
    N.getD t 0 = (taqLongCount tradeSign tauP t : ℚ) + (taqShortCount tradeSign tauP : ℚ) ∧
    R.getD t 0 = (if taqLongCount tradeSign tauP t ≠ 0
      then taqLongSum midpoint tradeSign tauP t + taqShortSum midpoint tradeSign tauP
      else 0) := by
  rw [taq_response_day_core_eq midpoint tradeSign tau tauP hlen hp] at hres
  have h := Option.some.inj hres
  have hR : R = ((List.range tau).foldl
      (taqLongStepF midpoint tradeSign tauP (taqShortCount tradeSign tauP)
        (taqShortSum midpoint tradeSign tauP))
      (taqRespInit midpoint tradeSign tau tauP,
       npWriteFirst (List.replicate tau 0) (tauP + 1)
         ((taqShortCount tradeSign tauP : ℚ)))).1 := by rw [h]
  have hN : N = ((List.range tau).foldl
      (taqLongStepF midpoint tradeSign tauP (taqShortCount tradeSign tauP)
        (taqShortSum midpoint tradeSign tauP))
      (taqRespInit midpoint tradeSign tau tauP,
       npWriteFirst (List.replicate tau 0) (tauP + 1)
         ((taqShortCount tradeSign tauP : ℚ)))).2 := by rw [h]
  constructor
  · rw [hN, List.range_eq_range',
      taqLongLoop_snd_getD midpoint tradeSign tauP _ _ tau 0 _ t
        (by rw [npWriteFirst_length, List.length_replicate]; omega),
      if_pos ⟨Nat.zero_le t, by omega, ht1⟩]
  · rw [hR, List.range_eq_range',
      taqLongLoop_fst_getD midpoint tradeSign tauP _ _ tau 0 _ t
        (by rw [taqRespInit_length]; omega)]
    by_cases hc : taqLongCount tradeSign tauP t ≠ 0
    · rw [if_pos ⟨Nat.zero_le t, by omega, ht1, hc⟩, if_pos hc]
    · rw [if_neg (fun hcon => hc hcon.2.2.2), if_neg hc]
      exact taqRespInit_getD_of_gt midpoint tradeSign tau tauP t ht1 (by omega)

/-- Witness for C1 (amended) at the same concrete input as the
counterexample: lag `τ = 2` has an empty-of-signs long slice, so
`N[2] = 0 + 1` and `R[2] = 0`. -/
theorem C1_long_lag_response_witness :
    ([1, 1, 1] : List ℚ).getD 2 0
        = (taqLongCount [1, 0, 0, 0, 0] 1 2 : ℚ) + (taqShortCount [1, 0, 0, 0, 0] 1 : ℚ) ∧
    ([1, 1, 0] : List ℚ).getD 2 0 = (if taqLongCount [1, 0, 0, 0, 0] 1 2 ≠ 0
      then taqLongSum [1, 2, 2, 2, 2] [1, 0, 0, 0, 0] 1 2
        + taqShortSum [1, 2, 2, 2, 2] [1, 0, 0, 0, 0] 1
      else 0) :=
  C1_long_lag_response [1, 2, 2, 2, 2] [1, 0, 0, 0, 0] 3 1 2 [1, 1, 0] [1, 1, 1]
    (by norm_num [taq_response_day_core, taqLongStep, taqShortCount, taqShortSlice, taqShortSum,
      taqShortReturn, taqLongCount, taqLongSlice, taqLongSum, taqLongReturn, npSliceToNeg,
      npSliceFromToNeg, npWriteFirst, taqRespInit, List.range_succ, List.countP_cons,
      List.foldlM, List.zipWith, List.sum, List.replicate])
    (by norm_num) (by norm_num) (by norm_num) (by norm_num)

/-- C1 counterexample: with `M = [1,2,2,2,2]`, `S = [1,0,0,0,0]`,
`τmax = 3`, `τp = 1`, the long lag `τ = 2` has a long slice with no non-zero
sign while the short product is `1`; the claim demands
`R[2] = Σ(long) + product_short = 1`, but the code leaves `R[2] = 0`. -/
theorem C1_counterexample :
    taq_response_day_core [1, 2, 2, 2, 2] [1, 0, 0, 0, 0] 3 1
        = some ([1, 1, 0], [1, 1, 1]) ∧
    taqLongSum [1, 2, 2, 2, 2] [1, 0, 0, 0, 0] 1 2
        + taqShortSum [1, 2, 2, 2, 2] [1, 0, 0, 0, 0] 1 = 1 ∧
    ([1, 1, 0] : List ℚ).getD 2 0 ≠ 1 := by
  refine ⟨?_, ?_, ?_⟩ <;>
    norm_num [taq_response_day_core, taqLongStep, taqShortCount, taqShortSlice, taqShortSum,
      taqShortReturn, taqLongCount, taqLongSlice, taqLongSum, taqLongReturn, npSliceToNeg,
      npSliceFromToNeg, npWriteFirst, taqRespInit, List.range_succ, List.countP_cons,
      List.foldlM, List.zipWith, List.sum, List.replicate]

/-! ### Day and year entry points

Data loading (pickle files keyed by ticker and date) is an external
collaborator; a day's loaded input is abstracted as
`Option (midpoint series × trade-sign series)`, `none` standing for a
`FileNotFoundError`. In the results below the *outer* `Option` is an
uncaught exception (`AssertionError` / `NameError` propagating out of the
function), while the *inner* `none` is the function's own `return None`. -/

/-- Shared body of the self- and cross-response day functions around the
data load: `FileNotFoundError` is caught and turned into `return None`
(source lines 137–140 / 295–298); any other exception propagates. -/
def taqDayFromData (data : Option (List ℚ × List ℚ)) (tau tauP : ℕ) :
    Option (Option (List ℚ × List ℚ)) :=
  match data with
  | none => some none
  | some p => (taq_response_day_core p.1 p.2 tau tauP).map some

/-- `taq_self_response_day_time_short_long_tau_data` (lines 45–140): load
the day's midpoint/trade-sign series and run the estimator body. -/
def taq_self_response_day_time_short_long_tau_data
    (data : Option (List ℚ × List ℚ)) (tau tauP : ℕ) :
    Option (Option (List ℚ × List ℚ)) :=
  taqDayFromData data tau tauP

/-- The per-date loop of the year-level functions (lines 165–177 / 334–347):
a day returning `None` makes the tuple unpacking raise `TypeError`, which is
caught and skips the day; any other exception aborts the whole year (only
`TypeError` is caught). State: accumulated response vector and the list of
per-day count vectors. -/
def taqYearGo (tau tauP : ℕ) :
    List (Option (List ℚ × List ℚ)) → List ℚ × List (List ℚ) →
      Option (List ℚ × List (List ℚ))
  | [], st => some st
  | d :: rest, st =>
    match taqDayFromData d tau tauP with
    | none => none
    | some none => taqYearGo tau tauP rest st
    | some (some p) =>
        taqYearGo tau tauP rest (List.zipWith (· + ·) st.1 p.1, st.2 ++ [p.2])

/-- `np.sum(np.asarray(num), axis=0)`: element-wise sum of the collected
count vectors (all of length `tau`). On the empty collection numpy returns
the scalar `0.0` and the subsequent division yields a length-`tau` `nan`
array; the embedding returns the zero vector there, the only (value-level)
deviation, and one outside every claim's hypotheses. -/
def sumVectors (tau : ℕ) (l : List (List ℚ)) : List ℚ :=
  l.foldl (fun acc v => List.zipWith (· + ·) acc v) (List.replicate tau 0)

/-- `taq_self_response_year_time_short_long_tau_data` (lines 145–187):
fold the days, then return `self_response / num_t` element-wise. -/
def taq_self_response_year_time_short_long_tau_data
    (days : List (Option (List ℚ × List ℚ))) (tau tauP : ℕ) : Option (List ℚ) :=
  match taqYearGo tau tauP days (List.replicate tau 0, []) with
  | none => none
  | some st => some (List.zipWith (· / ·) st.1 (sumVectors tau st.2))

/-- `taq_cross_response_day_time_short_long_tau_data` (lines 192–298): the
identity check on the two tickers precedes everything else. -/
def taq_cross_response_day_time_short_long_tau_data (tickerI tickerJ : String)
    (data : Option (List ℚ × List ℚ)) (tau tauP : ℕ) :
    Option (Option (List ℚ × List ℚ)) :=
  if tickerI = tickerJ then some none
  else taqDayFromData data tau tauP

/-- `taq_cross_response_year_time_short_long_tau_data` (lines 303–357). -/
def taq_cross_response_year_time_short_long_tau_data (tickerI tickerJ : String)
    (days : List (Option (List ℚ × List ℚ))) (tau tauP : ℕ) :
    Option (Option (List ℚ)) :=
  if tickerI = tickerJ then some none
  else (taq_self_response_year_time_short_long_tau_data days tau tauP).map some

/-- Day results of the days whose data loads and whose day-level
computation succeeds. -/
def taqValidDays (days : List (Option (List ℚ × List ℚ))) (tau tauP : ℕ) :
    List (List ℚ × List ℚ) :=
  days.filterMap (fun d => d.bind (fun p => taq_response_day_core p.1 p.2 tau tauP))

theorem taqYearGo_some (tau tauP : ℕ) :
    ∀ (days : List (Option (List ℚ × List ℚ))) (resp : List ℚ) (nums : List (List ℚ))
      (out : List ℚ × List (List ℚ)),
      taqYearGo tau tauP days (resp, nums) = some out →
      out.1 = (taqValidDays days tau tauP).foldl
          (fun acc p => List.zipWith (· + ·) acc p.1) resp ∧
      out.2 = nums ++ (taqValidDays days tau tauP).map Prod.snd := by
  intro days
  induction days with
  | nil =>
    intro resp nums out h
    have h' := Option.some.inj h
    rw [← h']
    exact ⟨rfl, (List.append_nil nums).symm⟩
  | cons d rest ih =>
    intro resp nums out h
    cases d with
    | none =>
      have hv : taqValidDays (none :: rest) tau tauP = taqValidDays rest tau tauP := rfl
      rw [hv]
      exact ih resp nums out h
    | some p =>
      unfold taqYearGo at h
      cases hcore : taq_response_day_core p.1 p.2 tau tauP with
      | none =>
        rw [show taqDayFromData (some p) tau tauP
            = (taq_response_day_core p.1 p.2 tau tauP).map some from rfl, hcore] at h
        exact absurd h (by simp)
      | some q =>
        rw [show taqDayFromData (some p) tau tauP
            = (taq_response_day_core p.1 p.2 tau tauP).map some from rfl, hcore] at h
        have hv : taqValidDays (some p :: rest) tau tauP
            = q :: taqValidDays rest tau tauP := by
          unfold taqValidDays
          rw [List.filterMap_cons]
          simp [hcore]
        rw [hv]
        obtain ⟨h1, h2⟩ := ih (List.zipWith (· + ·) resp q.1) (nums ++ [q.2]) out h
        refine ⟨by rw [h1, List.foldl_cons], ?_⟩
        rw [h2, List.map_cons]
        simp [List.append_assoc]

/-- C6: when the year-level computation returns, its value is the
element-wise quotient of summed day responses by summed day counts over
exactly the days whose data existed and whose day computation succeeded;
prepending a failed (missing-data) day changes nothing. -/
theorem C6_year_aggregation (days : List (Option (List ℚ × List ℚ))) (tau tauP : ℕ)
    (res : List ℚ)
    (h : taq_self_response_year_time_short_long_tau_data days tau tauP = some res) :
    res = List.zipWith (· / ·)
        ((taqValidDays days tau tauP).foldl
          (fun acc p => List.zipWith (· + ·) acc p.1) (List.replicate tau 0))
        (sumVectors tau ((taqValidDays days tau tauP).map Prod.snd)) ∧
    taq_self_response_year_time_short_long_tau_data (none :: days) tau tauP
      = taq_self_response_year_time_short_long_tau_data days tau tauP := by
  constructor
  · unfold taq_self_response_year_time_short_long_tau_data at h
    cases hgo : taqYearGo tau tauP days (List.replicate tau 0, []) with
    | none => rw [hgo] at h; exact absurd h (by simp)
    | some st =>
      rw [hgo] at h
      have h' := Option.some.inj h
      obtain ⟨h1, h2⟩ := taqYearGo_some tau tauP days (List.replicate tau 0) [] st hgo
      rw [← h', h1, h2, List.nil_append]
  · rfl

/-- Witness for C6: one missing day plus one valid day; the valid day's
`(R, N) = ([0,0], [2,2])` gives the year average `[0/2, 0/2] = [0, 0]`. -/
theorem C6_year_aggregation_witness :
    ([0, 0] : List ℚ) = List.zipWith (· / ·)
        ((taqValidDays [none, some ([1, 2, 4], [1, -1, 0])] 2 1).foldl
          (fun acc p => List.zipWith (· + ·) acc p.1) (List.replicate 2 0))
        (sumVectors 2 ((taqValidDays [none, some ([1, 2, 4], [1, -1, 0])] 2 1).map Prod.snd)) ∧
    taq_self_response_year_time_short_long_tau_data
        (none :: [none, some ([1, 2, 4], [1, -1, 0])]) 2 1
      = taq_self_response_year_time_short_long_tau_data
        [none, some ([1, 2, 4], [1, -1, 0])] 2 1 :=
  C6_year_aggregation [none, some ([1, 2, 4], [1, -1, 0])] 2 1 [0, 0]
    (by norm_num [taq_self_response_year_time_short_long_tau_data, taqYearGo, taqDayFromData,
      taq_response_day_core, taqLongStep, taqShortCount, taqShortSlice, taqShortSum,
      taqShortReturn, taqLongCount, taqLongSlice, taqLongSum, taqLongReturn, npSliceToNeg,
      npSliceFromToNeg, npWriteFirst, taqRespInit, List.range_succ, List.countP_cons,
      List.foldlM, List.zipWith, List.sum, List.replicate, sumVectors])

/-- C8: the cross-response entry points are dispatched purely on identity of
the two ticker strings: equal tickers return `None` immediately — for every
possible data input, i.e. without touching the data — while distinct
tickers run exactly the shared day/year algorithm. -/
theorem C8_ticker_dispatch (tickerI tickerJ : String)
    (data : Option (List ℚ × List ℚ)) (days : List (Option (List ℚ × List ℚ)))
    (tau tauP : ℕ) :
    (tickerI = tickerJ →
      taq_cross_response_day_time_short_long_tau_data tickerI tickerJ data tau tauP
        = some none ∧
      taq_cross_response_year_time_short_long_tau_data tickerI tickerJ days tau tauP
        = some none) ∧
    (tickerI ≠ tickerJ →
      taq_cross_response_day_time_short_long_tau_data tickerI tickerJ data tau tauP
        = taq_self_response_day_time_short_long_tau_data data tau tauP ∧
      taq_cross_response_year_time_short_long_tau_data tickerI tickerJ days tau tauP
        = (taq_self_response_year_time_short_long_tau_data days tau tauP).map some) := by
  constructor
  · intro he
    unfold taq_cross_response_day_time_short_long_tau_data
      taq_cross_response_year_time_short_long_tau_data
    rw [if_pos he, if_pos he]
    exact ⟨rfl, rfl⟩
  · intro hne
    unfold taq_cross_response_day_time_short_long_tau_data
      taq_cross_response_year_time_short_long_tau_data
      taq_self_response_day_time_short_long_tau_data
    rw [if_neg hne, if_neg hne]
    exact ⟨rfl, rfl⟩

def tickerA : String := "A"

def tickerB : String := "B"

/-- Witness for C8 at concrete tickers, both on the equal and the distinct
branch. -/
theorem C8_ticker_dispatch_witness :
    (taq_cross_response_day_time_short_long_tau_data tickerA tickerA
        (some ([1], [1])) 2 1 = some none ∧
     taq_cross_response_year_time_short_long_tau_data tickerA tickerA [] 2 1
        = some none) ∧
    (taq_cross_response_day_time_short_long_tau_data tickerA tickerB none 2 1
        = taq_self_response_day_time_short_long_tau_data none 2 1 ∧
     taq_cross_response_year_time_short_long_tau_data tickerA tickerB [] 2 1
        = (taq_self_response_year_time_short_long_tau_data [] 2 1).map some) :=
  ⟨(C8_ticker_dispatch tickerA tickerA (some ([1], [1])) [] 2 1).1 rfl,
   (C8_ticker_dispatch tickerA tickerB none [] 2 1).2 (by decide)⟩

/-! ### Part 2: the order-flow trade attributor

`src/project/itch_trade_classification/itch_algorithms/itch_trade_sign_classification_test.py`,
function `itch_trade_classification_data` (lines 23–153). A decoded ITCH
event row is `{Time, Order, T, Shares, Price}`; the `Shares` column is read
with dtype `uint16` and `Price` as a float that is immediately divided by
10000. Event types: `'E'`/`'F'` visible trades, `'T'` hidden trades,
`'B'`/`'S'` buy/sell limit orders. -/

inductive EType | E | F | T | B | S
deriving DecidableEq

structure Event where
  time : ℕ
  order : ℕ
  etype : EType
  shares : ℕ
  price : ℚ

def isTradeEvent (e : Event) : Bool :=
  decide (e.etype = EType.E ∨ e.etype = EType.F ∨ e.etype = EType.T)

def isLimitEvent (e : Event) : Bool :=
  decide (e.etype = EType.B ∨ e.etype = EType.S)

/-- Rows with `T in ('E','F','T')` — the trade executions, in file order. -/
def tradeRecs (events : List Event) : List Event :=
  events.filter isTradeEvent

def tradeTimes (events : List Event) : List ℕ :=
  (tradeRecs events).map (fun e => e.time)

def tradeOrders (events : List Event) : List ℕ :=
  (tradeRecs events).map (fun e => e.order)

/-- `3*(T=='E') + 4*(T=='F') + 5*(T=='T')` over the trade rows. -/
def tradeTypes (events : List Event) : List ℕ :=
  (tradeRecs events).map (fun e =>
    if e.etype = EType.E then 3 else if e.etype = EType.F then 4 else 5)

/-- The `Shares` column is `uint16`. -/
def tradeVolumes (events : List Event) : List ℕ :=
  (tradeRecs events).map (fun e => e.shares % 65536)

def tradePrices (events : List Event) : List ℚ :=
  (tradeRecs events).map (fun e => e.price / 10000)

/-- Limit rows (`'B'`/`'S'`) restricted to order-ids that also occur among
the trade rows (source line 70). -/
def limitRecs (events : List Event) : List Event :=
  (events.filter isLimitEvent).filter (fun e => (tradeOrders events).contains e.order)

def limitOrdersInit (events : List Event) : List ℕ :=
  (limitRecs events).map (fun e => e.order)

/-- `1*(T=='S') - 1*(T=='B')`: sell limit orders get `+1`, buy `-1`. -/
def limitTypes (events : List Event) : List Int :=
  (limitRecs events).map (fun e => if e.etype = EType.S then 1 else -1)

def limitVolumesInit (events : List Event) : List ℕ :=
  (limitRecs events).map (fun e => e.shares % 65536)

def limitPrices (events : List Event) : List ℚ :=
  (limitRecs events).map (fun e => e.price / 10000)

/-- Mutable state of the match pass: the limit-order pool (`limit_data_order`
and `limit_data_volume` are the two arrays the loop writes) and the three
per-trade output arrays, all zero-initialised. -/
structure MState where
  lOrd : List ℕ
  lVol : List ℕ
  signs : List Int
  vols : List ℕ
  prices : List ℚ

/-- `uint16` subtraction with wraparound (`a`, `b` < 2^16). -/
def uint16Sub (a b : ℕ) : ℕ :=
  (a + 65536 - b) % 65536

/-- One pass of the `for t_idx in range(length_trades)` loop (source lines
88–133). `np.where(...)[0][0]` is the first matching pool index; a lookup
miss raises `IndexError`, caught by the `except IndexError: pass`. The
volume decrement `limit_data_volume[l_idx] - trade_data_volume[t_idx]` is
`uint16` arithmetic; `assert diff_volumes > 0` fails — aborting the whole
day (`AssertionError` is not caught) — exactly when the wrapped difference
is zero. -/
def itchMatchStep (ltypes : List Int) (lprices : List ℚ)
    (tOrd tTy tVol tIdx : ℕ) (st : MState) : Option MState :=
  match st.lOrd.findIdx? (fun o => o == tOrd) with
  | none => some st
  | some l =>
    if tTy = 4 then
      some ⟨st.lOrd.set l 0, st.lVol,
            st.signs.set tIdx (if ltypes.getD l 0 = 1 then 1 else -1),
            st.vols.set tIdx (st.lVol.getD l 0),
            st.prices.set tIdx (lprices.getD l 0)⟩
    else
      if uint16Sub (st.lVol.getD l 0) tVol = 0 then none
      else
        some ⟨st.lOrd, st.lVol.set l (uint16Sub (st.lVol.getD l 0) tVol),
              st.signs.set tIdx (if ltypes.getD l 0 = 1 then 1 else -1),
              st.vols.set tIdx tVol,
              st.prices.set tIdx (lprices.getD l 0)⟩

def itchMatchLoop (ltypes : List Int) (lprices : List ℚ) :
    List (ℕ × ℕ × ℕ) → ℕ → MState → Option MState
  | [], _, st => some st
  | (o, ty, v) :: rest, tIdx, st =>
    match itchMatchStep ltypes lprices o ty v tIdx st with
    | none => none
    | some st2 => itchMatchLoop ltypes lprices rest (tIdx + 1) st2

def tradeTriples (events : List Event) : List (ℕ × ℕ × ℕ) :=
  (tradeOrders events).zip ((tradeTypes events).zip (tradeVolumes events))

/-- The match pass over one day's events: `none` iff the volume-integrity
assertion fired. -/
def itchMatchPass (events : List Event) : Option MState :=
  itchMatchLoop (limitTypes events) (limitPrices events) (tradeTriples events) 0
    ⟨limitOrdersInit events, limitVolumesInit events,
     List.replicate (tradeRecs events).length 0,
     List.replicate (tradeRecs events).length 0,
     List.replicate (tradeRecs events).length 0⟩

/-! Ghost replay of the match pass that additionally records, per trade
index, which pool slot (if any) the trade was matched to. Stated from the
spec's description of attribution ("sign resolved from the matched limit
order's side when a match exists"); used to express claims C3 and C10. -/

def itchTraceStep (ltypes : List Int) (lprices : List ℚ)
    (tOrd tTy tVol tIdx : ℕ) (st : MState × List (Option ℕ)) :
    Option (MState × List (Option ℕ)) :=
  match itchMatchStep ltypes lprices tOrd tTy tVol tIdx st.1 with
  | none => none
  | some st2 =>
    match st.1.lOrd.findIdx? (fun o => o == tOrd) with
    | none => some (st2, st.2)
    | some l => some (st2, st.2.set tIdx (some l))

def itchTraceLoop (ltypes : List Int) (lprices : List ℚ) :
    List (ℕ × ℕ × ℕ) → ℕ → MState × List (Option ℕ) →
      Option (MState × List (Option ℕ))
  | [], _, st => some st
  | (o, ty, v) :: rest, tIdx, st =>
    match itchTraceStep ltypes lprices o ty v tIdx st with
    | none => none
    | some st2 => itchTraceLoop ltypes lprices rest (tIdx + 1) st2

def itchTracePass (events : List Event) : Option (MState × List (Option ℕ)) :=
  itchTraceLoop (limitTypes events) (limitPrices events) (tradeTriples events) 0
    (⟨limitOrdersInit events, limitVolumesInit events,
      List.replicate (tradeRecs events).length 0,
      List.replicate (tradeRecs events).length 0,
      List.replicate (tradeRecs events).length 0⟩,
     List.replicate (tradeRecs events).length none)

/-- Hidden-fallback pass over volumes (source lines 139–140): positions with
type tag 5 are overwritten with the trade event's own volume. -/
def itchHiddenVols (events : List Event) (st : MState) : List ℕ :=
  List.zipWith (fun p r => if p.1 = 5 then r else p.2)
    ((tradeTypes events).zip st.vols) (tradeVolumes events)

/-- Hidden-fallback pass over prices (source line 141). -/
def itchHiddenPrices (events : List Event) (st : MState) : List ℚ :=
  List.zipWith (fun p r => if p.1 = 5 then r else p.2)
    ((tradeTypes events).zip st.prices) (tradePrices events)

/-- Session filter (source lines 144–145):
`trade_times/3600/1000 >= 9.666666` and `< 15.833333` on millisecond
timestamps; for integer stamps the float comparison is exactly
`10·t ≥ 347 999 976` and `10·t < 569 999 988`
(`9.666666 × 3 600 000 = 34 799 997.6`, `15.833333 × 3 600 000 =
56 999 998.8`; the double rounding error of the two constants, below 1e-8
seconds, cannot move an integer-millisecond stamp across the bound). -/
def marketTime (t : ℕ) : Bool :=
  decide (347999976 ≤ 10 * t) && decide (10 * t < 569999988)

def itchQuads (events : List Event) (st : MState) : List (ℕ × Int × ℕ × ℚ) :=
  ((tradeTimes events).zip
    (st.signs.zip ((itchHiddenVols events st).zip (itchHiddenPrices events st)))).filter
    (fun q => marketTime q.1)

/-- `itch_trade_classification_data`: match pass, the source's own
post-condition `assert len(trade_signs != 0) == len(trade_data_types != 5)`
— note that, as written, `len` of a boolean mask is the length of the whole
array, so the assert compares the two mask lengths — then hidden-fallback
pass and session filter, returning the four aligned output arrays. -/
def itch_trade_classification_data (events : List Event) :
    Option (List ℕ × List Int × List ℕ × List ℚ) :=
  match itchMatchPass events with
  | none => none
  | some st =>
    if (st.signs.map (fun s => decide (s ≠ 0))).length
        = ((tradeTypes events).map (fun ty => decide (ty ≠ 5))).length then
      some ((itchQuads events st).map (fun q => q.1),
            (itchQuads events st).map (fun q => q.2.1),
            (itchQuads events st).map (fun q => q.2.2.1),
            (itchQuads events st).map (fun q => q.2.2.2))
    else none

/-- Sign attributed by the match pass as a function of the recorded match:
an unmatched trade keeps the zero initialisation (the raw feed carries no
direction label for it), a matched one gets the pool entry's side. -/
def itchSide (ltypes : List Int) : Option ℕ → Int
  | none => 0
  | some l => if ltypes.getD l 0 = 1 then 1 else -1

theorem itchMatchStep_some_cases (ltypes : List Int) (lprices : List ℚ)
    (tOrd tTy tVol tIdx : ℕ) (st st2 : MState)
    (h : itchMatchStep ltypes lprices tOrd tTy tVol tIdx st = some st2) :
    (st.lOrd.findIdx? (fun x => x == tOrd) = none ∧ st2 = st) ∨
    (∃ l, st.lOrd.findIdx? (fun x => x == tOrd) = some l ∧
      st2.signs = st.signs.set tIdx (if ltypes.getD l 0 = 1 then 1 else -1) ∧
      (∃ w, st2.vols = st.vols.set tIdx w) ∧
      st2.prices = st.prices.set tIdx (lprices.getD l 0)) := by
  unfold itchMatchStep at h
  split at h
  · rename_i hf
    exact Or.inl ⟨hf, (Option.some.inj h).symm⟩
  · rename_i l hf
    refine Or.inr ⟨l, hf, ?_⟩
    split at h
    · have h' := Option.some.inj h
      rw [← h']
      exact ⟨rfl, ⟨st.lVol.getD l 0, rfl⟩, rfl⟩
    · split at h
      · exact absurd h (by simp)
      · have h' := Option.some.inj h
        rw [← h']
        exact ⟨rfl, ⟨tVol, rfl⟩, rfl⟩

/-- The trace-augmented loop projects onto the plain match loop. -/
theorem itchTraceLoop_fst (ltypes : List Int) (lprices : List ℚ) :
    ∀ (trades : List (ℕ × ℕ × ℕ)) (tIdx : ℕ) (st : MState × List (Option ℕ)),
      (itchTraceLoop ltypes lprices trades tIdx st).map Prod.fst
        = itchMatchLoop ltypes lprices trades tIdx st.1 := by
  intro trades
  induction trades with
  | nil => intro tIdx st; rfl
  | cons hd rest ih =>
    intro tIdx st
    obtain ⟨o, ty, v⟩ := hd
    show (match itchTraceStep ltypes lprices o ty v tIdx st with
      | none => none
      | some st2 => itchTraceLoop ltypes lprices rest (tIdx + 1) st2).map Prod.fst = _
    unfold itchTraceStep
    cases hs : itchMatchStep ltypes lprices o ty v tIdx st.1 with
    | none =>
      show (none : Option (MState × List (Option ℕ))).map Prod.fst
        = match itchMatchStep ltypes lprices o ty v tIdx st.1 with
          | none => none
          | some st2 => itchMatchLoop ltypes lprices rest (tIdx + 1) st2
      rw [hs]
      rfl
    | some st2 =>
      cases hf : st.1.lOrd.findIdx? (fun x => x == o) with
      | none =>
        show (itchTraceLoop ltypes lprices rest (tIdx + 1) (st2, st.2)).map Prod.fst
          = match itchMatchStep ltypes lprices o ty v tIdx st.1 with
            | none => none
            | some st2 => itchMatchLoop ltypes lprices rest (tIdx + 1) st2
        rw [hs, ih (tIdx + 1) (st2, st.2)]
      | some l =>
        show (itchTraceLoop ltypes lprices rest (tIdx + 1)
            (st2, st.2.set tIdx (some l))).map Prod.fst
          = match itchMatchStep ltypes lprices o ty v tIdx st.1 with
            | none => none
            | some st2 => itchMatchLoop ltypes lprices rest (tIdx + 1) st2
        rw [hs, ih (tIdx + 1) (st2, st.2.set tIdx (some l))]

theorem itchTracePass_matchPass (events : List Event) (st : MState)
    (tr : List (Option ℕ)) (h : itchTracePass events = some (st, tr)) :
    itchMatchPass events = some st := by
  have hp := itchTraceLoop_fst (limitTypes events) (limitPrices events) (tradeTriples events) 0
    (⟨limitOrdersInit events, limitVolumesInit events,
      List.replicate (tradeRecs events).length 0,
      List.replicate (tradeRecs events).length 0,
      List.replicate (tradeRecs events).length 0⟩,
     List.replicate (tradeRecs events).length none)
  unfold itchTracePass at h
  rw [h, Option.map_some'] at hp
  exact hp.symm

/-- Invariant tying the match-pass state to the ghost trace: signs are the
image of the trace under `itchSide`, all per-trade arrays keep length `n`,
and unmatched positions still hold the zero-initialised volume and price. -/
def itchInv (ltypes : List Int) (n : ℕ) (st : MState) (tr : List (Option ℕ)) : Prop :=
  st.signs = tr.map (itchSide ltypes) ∧
  tr.length = n ∧ st.vols.length = n ∧ st.prices.length = n ∧
  ∀ i, tr.getD i none = none → st.vols.getD i 0 = 0 ∧ st.prices.getD i 0 = 0

theorem itchTraceStep_inv (ltypes : List Int) (lprices : List ℚ)
    (tOrd tTy tVol tIdx n : ℕ) (st st' : MState × List (Option ℕ))
    (h : itchTraceStep ltypes lprices tOrd tTy tVol tIdx st = some st')
    (hinv : itchInv ltypes n st.1 st.2) : itchInv ltypes n st'.1 st'.2 := by
  obtain ⟨hsig, hlt, hlv, hlp, hzero⟩ := hinv
  unfold itchTraceStep at h
  split at h
  · exact absurd h (by simp)
  · rename_i st2 hs
    split at h
    · rename_i hf
      rcases itchMatchStep_some_cases ltypes lprices tOrd tTy tVol tIdx st.1 st2 hs with
        ⟨_, heq⟩ | ⟨l, hf', _⟩
      · have h' := Option.some.inj h
        rw [← h', heq]
        exact ⟨hsig, hlt, hlv, hlp, hzero⟩
      · rw [hf'] at hf
        exact absurd hf (by simp)
    · rename_i l hf
      rcases itchMatchStep_some_cases ltypes lprices tOrd tTy tVol tIdx st.1 st2 hs with
        ⟨hf', _⟩ | ⟨l', hf', hsig2, ⟨w, hvol2⟩, hpr2⟩
      · rw [hf'] at hf
        exact absurd hf (by simp)
      · rw [hf'] at hf
        have hl : l' = l := Option.some.inj hf
        subst hl
        have h' := Option.some.inj h
        rw [← h']
        refine ⟨?_, by simp [hlt], by simp [hvol2, hlv], by simp [hpr2, hlp], ?_⟩
        · show st2.signs = List.map (itchSide ltypes) (st.2.set tIdx (some l'))
          rw [List.map_set, ← hsig]
          exact hsig2
        · intro i hi
          show st2.vols.getD i 0 = 0 ∧ st2.prices.getD i 0 = 0
          simp only at hi
          by_cases hit : i = tIdx
          · subst hit
            by_cases hlen : i < st.2.length
            · rw [getD_set_self st.2 i (some l') none hlen] at hi
              exact absurd hi (by simp)
            · rw [List.set_eq_of_length_le (by omega)] at hi
              have hz := hzero i hi
              rw [hvol2, hpr2, List.set_eq_of_length_le (by omega),
                List.set_eq_of_length_le (by omega)]
              exact hz
          · rw [getD_set_ne st.2 (some l') none (fun hh => hit hh.symm)] at hi
            have hz := hzero i hi
            rw [hvol2, hpr2, getD_set_ne st.1.vols _ _ (fun hh => hit hh.symm),
              getD_set_ne st.1.prices _ _ (fun hh => hit hh.symm)]
            exact hz

theorem itchTraceLoop_inv (ltypes : List Int) (lprices : List ℚ) (n : ℕ) :
    ∀ (trades : List (ℕ × ℕ × ℕ)) (tIdx : ℕ) (st out : MState × List (Option ℕ)),
      itchTraceLoop ltypes lprices trades tIdx st = some out →
      itchInv ltypes n st.1 st.2 → itchInv ltypes n out.1 out.2 := by
  intro trades
  induction trades with
  | nil =>
    intro tIdx st out h hinv
    have h' := Option.some.inj h
    rw [← h']
    exact hinv
  | cons hd rest ih =>
    intro tIdx st out h hinv
    obtain ⟨o, ty, v⟩ := hd
    unfold itchTraceLoop at h
    split at h
    · exact absurd h (by simp)
    · rename_i st2 hs
      exact ih (tIdx + 1) st2 out h
        (itchTraceStep_inv ltypes lprices o ty v tIdx n st st2 hs hinv)

theorem itchTracePass_inv (events : List Event) (st : MState) (tr : List (Option ℕ))
    (h : itchTracePass events = some (st, tr)) :
    itchInv (limitTypes events) (tradeRecs events).length st tr := by
  unfold itchTracePass at h
  refine itchTraceLoop_inv (limitTypes events) (limitPrices events)
    (tradeRecs events).length (tradeTriples events) 0 _ (st, tr) h ?_
  refine ⟨?_, List.length_replicate .., List.length_replicate .., List.length_replicate .., ?_⟩
  · rw [List.map_replicate]
    rfl
  · intro i _
    exact ⟨getD_replicate_self .., getD_replicate_self ..⟩

/-- An unmatched trade's sign stays at the zero initialisation. -/
theorem itchTrace_sign_zero (events : List Event) (st : MState) (tr : List (Option ℕ))
    (h : itchTracePass events = some (st, tr)) :
    ∀ i, tr.getD i none = none → st.signs.getD i 0 = 0 := by
  obtain ⟨hsig, _, _, _, _⟩ := itchTracePass_inv events st tr h
  intro i hi
  rw [List.getD_eq_getElem?_getD] at hi
  rw [hsig, List.getD_eq_getElem?_getD, List.getElem?_map]
  cases hg : tr[i]? with
  | none => rfl
  | some o =>
    rw [hg] at hi
    simp only [Option.getD_some] at hi
    rw [hi]
    rfl

/-- C3: the signs produced by the attributor's match pass are exactly the
matched limit orders' sides. The ghost trace records which pool slot each
trade matched; the sign array is the image of that trace under `itchSide`,
with `limit_data_types` holding `+1` for a sell (`'S'`) and `-1` for a buy
(`'B'`) limit order, and every unmatched trade — in particular every
hidden-fallback trade — keeping sign `0`, the feed's own (absent) direction
label. The hidden-fallback pass (lines 139–141) rewrites only volumes and
prices, never signs. -/
theorem C3_matched_sign (events : List Event) (st : MState) (tr : List (Option ℕ))
    (h : itchTracePass events = some (st, tr)) :
    st.signs = tr.map (itchSide (limitTypes events)) ∧
    limitTypes events
      = (limitRecs events).map (fun e => if e.etype = EType.S then 1 else -1) ∧
    (∀ i, tr.getD i none = none → st.signs.getD i 0 = 0) ∧
    itchMatchPass events = some st := by
  have hinv := itchTracePass_inv events st tr h
  obtain ⟨hsig, hlt, _, _, _⟩ := hinv
  exact ⟨hsig, rfl, itchTrace_sign_zero events st tr h,
    itchTracePass_matchPass events st tr h⟩

/-- Witness for C3: a sell limit order matched by a visible trade (sign
`+1`) and an unmatched hidden trade (sign `0`). -/
theorem C3_matched_sign_witness :
    (⟨[7], [60], [1, 0], [40, 0], [(50000 : ℚ) / 10000, 0]⟩ : MState).signs
        = [some 0, none].map (itchSide (limitTypes
            [⟨35000000, 7, EType.S, 100, 50000⟩, ⟨35000500, 7, EType.E, 40, 50000⟩,
             ⟨35000600, 0, EType.T, 5, 30000⟩])) ∧
    limitTypes [⟨35000000, 7, EType.S, 100, 50000⟩, ⟨35000500, 7, EType.E, 40, 50000⟩,
        ⟨35000600, 0, EType.T, 5, 30000⟩]
      = (limitRecs [⟨35000000, 7, EType.S, 100, 50000⟩, ⟨35000500, 7, EType.E, 40, 50000⟩,
          ⟨35000600, 0, EType.T, 5, 30000⟩]).map
          (fun e => if e.etype = EType.S then 1 else -1) ∧
    (∀ i, ([some 0, none] : List (Option ℕ)).getD i none = none →
      (⟨[7], [60], [1, 0], [40, 0], [(50000 : ℚ) / 10000, 0]⟩ : MState).signs.getD i 0 = 0) ∧
    itchMatchPass [⟨35000000, 7, EType.S, 100, 50000⟩, ⟨35000500, 7, EType.E, 40, 50000⟩,
        ⟨35000600, 0, EType.T, 5, 30000⟩]
      = some ⟨[7], [60], [1, 0], [40, 0], [(50000 : ℚ) / 10000, 0]⟩ :=
  C3_matched_sign
    [⟨35000000, 7, EType.S, 100, 50000⟩, ⟨35000500, 7, EType.E, 40, 50000⟩,
     ⟨35000600, 0, EType.T, 5, 30000⟩]
    ⟨[7], [60], [1, 0], [40, 0], [(50000 : ℚ) / 10000, 0]⟩ [some 0, none] rfl

/-- C2: evaluation at a day whose single execution is a visible (`'E'`)
trade referencing an order-id absent from the pool. The source's
post-condition `assert len(trade_signs != 0) == len(trade_data_types != 5)`
compares `len` of two boolean masks — i.e. the lengths of the full arrays —
so it holds here and the attributor returns normally, even though the
semantic counts (`0` executions with non-zero sign vs `1` execution of
non-hidden type) differ: the claimed invariant is neither asserted as
written nor true of the state the assert guards. -/
theorem C2_assert_is_vacuous :
    itchMatchPass [⟨35000000, 42, EType.E, 100, 10000⟩] = some ⟨[], [], [0], [0], [0]⟩ ∧
    ((([0] : List Int).map (fun s => decide (s ≠ 0))).length
        = ((tradeTypes [⟨35000000, 42, EType.E, 100, 10000⟩]).map
            (fun ty => decide (ty ≠ 5))).length) ∧
    ([0] : List Int).countP (fun s => decide (s ≠ 0)) = 0 ∧
    (tradeTypes [⟨35000000, 42, EType.E, 100, 10000⟩]).countP (fun ty => decide (ty ≠ 5)) = 1 ∧
    itch_trade_classification_data [⟨35000000, 42, EType.E, 100, 10000⟩]
      = some ([35000000], [0], [0], [0]) :=
  ⟨rfl, rfl, rfl, rfl, rfl⟩

/-- C4: evaluation at a pool entry of 10 remaining shares consumed by a
visible trade of volume 20. The remainder `10 − 20` is non-positive, so the
attribution is required to abort; but `limit_data_volume` is a `uint16`
array, the difference wraps to `65526`, `assert diff_volumes > 0` passes,
and the match pass continues with the corrupted pool entry. The assert does
fire — the only way it can — when the wrapped difference is exactly `0`
(equal volumes, second conjunct block). -/
theorem C4_integrity_check_wraps :
    itchMatchPass [⟨35000000, 9, EType.S, 10, 20000⟩, ⟨35000100, 9, EType.E, 20, 21000⟩]
      = some ⟨[9], [65526], [1], [20], [(20000 : ℚ) / 10000]⟩ ∧
    (10 : ℤ) - 20 ≤ 0 ∧
    uint16Sub 10 20 = 65526 ∧
    itchMatchPass [⟨35000000, 9, EType.S, 10, 20000⟩, ⟨35000100, 9, EType.E, 10, 21000⟩]
      = none ∧
    itch_trade_classification_data
        [⟨35000000, 9, EType.S, 10, 20000⟩, ⟨35000100, 9, EType.E, 10, 21000⟩] = none :=
  ⟨rfl, by decide, rfl, rfl, rfl⟩

/-- C10 counterexample: a visible unmatched execution at 00:00:01 — outside
the 9h40–15h50 session window — is dropped by the session filter, so the
returned sequences do *not* contain it; the claim as stated (over *every*
such execution) fails. -/
theorem C10_counterexample :
    tradeTypes [⟨1000, 42, EType.E, 10, 10000⟩] = [3] ∧
    itchMatchPass [⟨1000, 42, EType.E, 10, 10000⟩] = some ⟨[], [], [0], [0], [0]⟩ ∧
    itch_trade_classification_data [⟨1000, 42, EType.E, 10, 10000⟩]
      = some ([], [], [], []) :=
  ⟨rfl, rfl, rfl⟩

theorem tradeTimes_length (events : List Event) :
    (tradeTimes events).length = (tradeRecs events).length :=
  List.length_map ..

theorem tradeTypes_length (events : List Event) :
    (tradeTypes events).length = (tradeRecs events).length :=
  List.length_map ..

theorem tradeVolumes_length (events : List Event) :
    (tradeVolumes events).length = (tradeRecs events).length :=
  List.length_map ..

theorem tradePrices_length (events : List Event) :
    (tradePrices events).length = (tradeRecs events).length :=
  List.length_map ..

/-- C10 (amended): every visible (non-hidden) trade whose order-id found no
pool match *and whose timestamp lies inside the session window* does appear
in the attributor's returned sequences, with the zero-initialised sign `0`,
volume `0` and price `0` — the lookup miss leaves the zeros in place and
the hidden-fallback pass rewrites only hidden-type positions. (The session
filter drops such executions outside the window — the counterexample.) -/
theorem C10_unmatched_visible (events : List Event) (st : MState)
    (tr : List (Option ℕ)) (i : ℕ)
    (h : itchTracePass events = some (st, tr))
    (hn : tr.getD i none = none)
    (hty : (tradeTypes events).getD i 0 ≠ 5)
    (hi : i < (tradeRecs events).length)
    (hmt : marketTime ((tradeTimes events).getD i 0) = true) :
    itch_trade_classification_data events
      = some ((itchQuads events st).map (fun q => q.1),
              (itchQuads events st).map (fun q => q.2.1),
              (itchQuads events st).map (fun q => q.2.2.1),
              (itchQuads events st).map (fun q => q.2.2.2)) ∧
    ((tradeTimes events).getD i 0, (0 : Int), (0 : ℕ), (0 : ℚ)) ∈ itchQuads events st := by
  obtain ⟨hsig, hlt, hlv, hlp, hzero⟩ := itchTracePass_inv events st tr h
  have hmp := itchTracePass_matchPass events st tr h
  have hsl : st.signs.length = (tradeRecs events).length := by
    rw [hsig, List.length_map, hlt]
  have hz := hzero i hn
  have hsi : st.signs.getD i 0 = 0 :=
    itchTrace_sign_zero events st tr h i hn
  have hhv : (itchHiddenVols events st).length = (tradeRecs events).length := by
    rw [itchHiddenVols, List.length_zipWith, List.length_zip, tradeTypes_length,
      tradeVolumes_length, hlv]
    omega
  have hhp : (itchHiddenPrices events st).length = (tradeRecs events).length := by
    rw [itchHiddenPrices, List.length_zipWith, List.length_zip, tradeTypes_length,
      tradePrices_length, hlp]
    omega
  constructor
  · simp only [itch_trade_classification_data, hmp]
    rw [if_pos (by rw [List.length_map, List.length_map, hsl, tradeTypes_length])]
  · have hiv : i < (itchHiddenVols events st).length := by omega
    have hip : i < (itchHiddenPrices events st).length := by omega
    have his : i < st.signs.length := by omega
    have hit : i < (tradeTimes events).length := by rw [tradeTimes_length]; omega
    have hity : i < (tradeTypes events).length := by rw [tradeTypes_length]; omega
    have hql : i < ((tradeTimes events).zip
        (st.signs.zip ((itchHiddenVols events st).zip (itchHiddenPrices events st)))).length := by
      simp only [List.length_zip]
      omega
    have htyi : (tradeTypes events)[i] ≠ 5 := by
      rw [← List.getD_eq_getElem (tradeTypes events) 0 hity]
      exact hty
    have hvol : (itchHiddenVols events st)[i] = 0 := by
      simp only [itchHiddenVols, List.getElem_zipWith, List.getElem_zip]
      rw [if_neg htyi, ← hz.1, List.getD_eq_getElem st.vols 0 (by omega)]
    have hpr : (itchHiddenPrices events st)[i] = 0 := by
      simp only [itchHiddenPrices, List.getElem_zipWith, List.getElem_zip]
      rw [if_neg htyi, ← hz.2, List.getD_eq_getElem st.prices 0 (by omega)]
    have hsgn : st.signs[i] = 0 := by
      rw [← hsi, List.getD_eq_getElem st.signs 0 (by omega)]
    have hq : ((tradeTimes events).zip
        (st.signs.zip ((itchHiddenVols events st).zip (itchHiddenPrices events st))))[i]
        = ((tradeTimes events).getD i 0, (0 : Int), (0 : ℕ), (0 : ℚ)) := by
      rw [List.getElem_zip, List.getElem_zip, List.getElem_zip, hsgn, hvol, hpr,
        List.getD_eq_getElem (tradeTimes events) 0 hit]
    unfold itchQuads
    refine List.mem_filter.mpr ⟨?_, ?_⟩
    · rw [← hq]
      exact List.getElem_mem _
    · exact hmt

/-- Witness for C10 (amended): a single in-session visible trade with no
matching limit order is returned as `(time, 0, 0, 0)`. -/
theorem C10_unmatched_visible_witness :
    itch_trade_classification_data [⟨35000000, 42, EType.E, 10, 10000⟩]
      = some ((itchQuads [⟨35000000, 42, EType.E, 10, 10000⟩]
                ⟨[], [], [0], [0], [0]⟩).map (fun q => q.1),
              (itchQuads [⟨35000000, 42, EType.E, 10, 10000⟩]
                ⟨[], [], [0], [0], [0]⟩).map (fun q => q.2.1),
              (itchQuads [⟨35000000, 42, EType.E, 10, 10000⟩]
                ⟨[], [], [0], [0], [0]⟩).map (fun q => q.2.2.1),
              (itchQuads [⟨35000000, 42, EType.E, 10, 10000⟩]
                ⟨[], [], [0], [0], [0]⟩).map (fun q => q.2.2.2)) ∧
    ((tradeTimes [⟨35000000, 42, EType.E, 10, 10000⟩]).getD 0 0, (0 : Int), (0 : ℕ), (0 : ℚ))
      ∈ itchQuads [⟨35000000, 42, EType.E, 10, 10000⟩] ⟨[], [], [0], [0], [0]⟩ :=
  C10_unmatched_visible [⟨35000000, 42, EType.E, 10, 10000⟩]
    ⟨[], [], [0], [0], [0]⟩ [none] 0 rfl rfl (by decide) (by decide) rfl

/-! ### Part 3: the tick-rule sign inferencer (Eq. 1) -/

/-- `np.sign` on a rational. -/
def sgnQ (x : ℚ) : Int :=
  if 0 < x then 1 else if x < 0 then -1 else 0

/-- `price_signs[t_idx - 1]`: Python index `-1` at `t_idx = 0` wraps to the
last element. -/
def eq1Prev (priceSigns : List ℚ) (t : ℕ) : ℚ :=
  if t = 0 then priceSigns.getD (priceSigns.length - 1) 0 else priceSigns.getD (t - 1) 0

/-- Body of one loop pass of Eq. 1 (source lines 186–196): the sign of the
price change when it is non-zero, the carried previous entry otherwise. At
`t_idx = 0` the carried read `identified_trades[-1]` hits the untouched
zero initialisation, so the incoming `prev` is `0`. -/
def eq1Val (priceSigns : List ℚ) (t : ℕ) (prev : Int) : Int :=
  if priceSigns.getD t 0 - eq1Prev priceSigns t ≠ 0
  then sgnQ (priceSigns.getD t 0 - eq1Prev priceSigns t)
  else prev

def eq1Go (priceSigns : List ℚ) : ℕ → ℕ → Int → List Int
  | _, 0, _ => []
  | t, k + 1, prev =>
    eq1Val priceSigns t prev :: eq1Go priceSigns (t + 1) k (eq1Val priceSigns t prev)

/-- `itch_trade_classification_eq1_data` (source lines 158–201): run the
carry loop over all trade indices, then keep exactly the entries whose
aligned empirical sign is non-zero. (Out-of-range price access raises
`IndexError` in the source; the embedding is used at equal lengths, where
every access is in range.) -/
def itch_trade_classification_eq1_data (tradeSigns : List Int) (priceSigns : List ℚ) :
    List Int :=
  ((eq1Go priceSigns 0 tradeSigns.length 0).zip tradeSigns).filterMap
    (fun p => if p.2 ≠ 0 then some p.1 else none)

/-- The claim's description of the tick rule, index-recursive: at index 0
the price difference wraps to the last element and the carry seed is the
zero placeholder; at `i + 1` a zero difference carries the value inferred
at `i`. -/
def tickRuleSpec (priceSigns : List ℚ) : ℕ → Int
  | 0 => if priceSigns.getD 0 0 - priceSigns.getD (priceSigns.length - 1) 0 ≠ 0
         then sgnQ (priceSigns.getD 0 0 - priceSigns.getD (priceSigns.length - 1) 0) else 0
  | i + 1 => if priceSigns.getD (i + 1) 0 - priceSigns.getD i 0 ≠ 0
             then sgnQ (priceSigns.getD (i + 1) 0 - priceSigns.getD i 0)
             else tickRuleSpec priceSigns i

theorem eq1Val_eq_tickRuleSpec (priceSigns : List ℚ) (t : ℕ) (prev : Int)
    (hprev : prev = if t = 0 then 0 else tickRuleSpec priceSigns (t - 1)) :
    eq1Val priceSigns t prev = tickRuleSpec priceSigns t := by
  cases t with
  | zero =>
    rw [hprev]
    rfl
  | succ s =>
    rw [hprev, if_neg (Nat.succ_ne_zero s), Nat.add_sub_cancel]
    unfold eq1Val eq1Prev
    rw [if_neg (Nat.succ_ne_zero s)]
    simp only [Nat.add_sub_cancel]
    rfl

theorem eq1Go_eq_map (priceSigns : List ℚ) :
    ∀ (k t : ℕ) (prev : Int),
      prev = (if t = 0 then 0 else tickRuleSpec priceSigns (t - 1)) →
      eq1Go priceSigns t k prev = (List.range' t k).map (tickRuleSpec priceSigns) := by
  intro k
  induction k with
  | zero => intro t prev _; rfl
  | succ k ih =>
    intro t prev hprev
    rw [List.range'_succ, List.map_cons]
    unfold eq1Go
    rw [eq1Val_eq_tickRuleSpec priceSigns t prev hprev,
      ih (t + 1) _ (by rw [if_neg (Nat.succ_ne_zero t)]; rfl)]

theorem zip_map_fst_filterMap {β : Type} (f : ℕ → β) [DecidableEq β] :
    ∀ (idx : List ℕ) (signs : List Int),
      ((idx.map f).zip signs).filterMap (fun p => if p.2 ≠ 0 then some p.1 else none)
        = (idx.zip signs).filterMap (fun p => if p.2 ≠ 0 then some (f p.1) else none) := by
  intro idx
  induction idx with
  | nil => intro signs; rfl
  | cons i idx ih =>
    intro signs
    cases signs with
    | nil => rfl
    | cons s signs =>
      simp only [List.map_cons, List.zip_cons_cons, List.filterMap_cons]
      by_cases hs : s ≠ 0
      · rw [if_pos hs, ih]
      · rw [if_neg hs, ih]

theorem zip_filterMap_length {β : Type} (f : ℕ → β) :
    ∀ (idx : List ℕ) (signs : List Int), signs.length ≤ idx.length →
      ((idx.zip signs).filterMap
        (fun p : ℕ × Int => if p.2 ≠ 0 then some (f p.1) else none)).length
        = signs.countP (fun s => decide (s ≠ 0)) := by
  intro idx
  induction idx with
  | nil =>
    intro signs h
    simp only [List.length_nil, Nat.le_zero, List.length_eq_zero] at h
    subst h
    rfl
  | cons i idx ih =>
    intro signs h
    cases signs with
    | nil => rfl
    | cons s signs =>
      simp only [List.zip_cons_cons, List.filterMap_cons, List.countP_cons]
      by_cases hs : s ≠ 0
      · rw [if_pos hs, List.length_cons, ih signs (by simpa using h)]
        simp [hs]
      · rw [if_neg hs, ih signs (by simpa using h)]
        simp [hs]

/-- C5: the tick-rule inferencer computes, for each execution index, the
sign of the price change (carrying the previous inferred value on a zero
change, with circular wraparound of the price at index 0), and then keeps
exactly the entries whose aligned empirical sign is non-zero, so the result
length is the number of non-zero empirical signs. -/
theorem C5_tick_rule (tradeSigns : List Int) (priceSigns : List ℚ)
    (_hlen : tradeSigns.length = priceSigns.length) :
    itch_trade_classification_eq1_data tradeSigns priceSigns
      = ((List.range tradeSigns.length).zip tradeSigns).filterMap
          (fun p => if p.2 ≠ 0 then some (tickRuleSpec priceSigns p.1) else none) ∧
    (itch_trade_classification_eq1_data tradeSigns priceSigns).length
      = tradeSigns.countP (fun s => decide (s ≠ 0)) := by
  have hgo : eq1Go priceSigns 0 tradeSigns.length 0
      = (List.range tradeSigns.length).map (tickRuleSpec priceSigns) := by
    rw [List.range_eq_range']
    exact eq1Go_eq_map priceSigns tradeSigns.length 0 0 (by rw [if_pos rfl])
  constructor
  · rw [itch_trade_classification_eq1_data, hgo, zip_map_fst_filterMap]
  · rw [itch_trade_classification_eq1_data, hgo, zip_map_fst_filterMap,
      zip_filterMap_length (tickRuleSpec priceSigns) (List.range tradeSigns.length)
        tradeSigns (by rw [List.length_range])]

/-- Witness for C5 at a three-execution day whose middle execution has
empirical sign `0`. -/
theorem C5_tick_rule_witness :
    itch_trade_classification_eq1_data [1, 0, -1] [2, 1, 1]
      = ((List.range ([1, 0, -1] : List Int).length).zip [1, 0, -1]).filterMap
          (fun p => if p.2 ≠ 0 then some (tickRuleSpec [2, 1, 1] p.1) else none) ∧
    (itch_trade_classification_eq1_data [1, 0, -1] [2, 1, 1]).length
      = ([1, 0, -1] : List Int).countP (fun s => decide (s ≠ 0)) :=
  C5_tick_rule [1, 0, -1] [2, 1, 1] rfl

/-! ### Part 4: time-bucket aggregation (Eq. 2/3) and the accuracy scores -/

/-- `np.sign` on an integer. -/
def sgnZ (x : Int) : Int :=
  if 0 < x then 1 else if x < 0 then -1 else 0

/-- `full_time = np.array(range(34800, 57000))`: the scored seconds. -/
def fullTime : List ℕ :=
  List.range' 34800 22200

/-- `(times_signs / 1000 >= t_val) & (times_signs / 1000 < t_val + 1)` on
integer millisecond stamps (the float division by 1000 cannot move an
integer stamp across an integer-second bound). -/
def bucketCond (tv t : ℕ) : Bool :=
  decide (1000 * tv ≤ t) && decide (t < 1000 * (tv + 1))

/-- The mask `trade_signs != 0` applied jointly to `times_signs` and
`trade_signs` (source lines 230–232; the two arrays have equal length in
every use). -/
def itchNonzeroPairs (timesSigns : List ℕ) (tradeSigns : List Int) : List (ℕ × Int) :=
  (timesSigns.zip tradeSigns).filter (fun p => decide (p.2 ≠ 0))

def itchFilteredTimes (timesSigns : List ℕ) (tradeSigns : List Int) : List ℕ :=
  (itchNonzeroPairs timesSigns tradeSigns).map (fun p => p.1)

def itchFilteredSigns (timesSigns : List ℕ) (tradeSigns : List Int) : List Int :=
  (itchNonzeroPairs timesSigns tradeSigns).map (fun p => p.2)

/-- `np.sum(trade_signs[condition])` for second `tv`. -/
def itchBucketSumEmp (timesSigns : List ℕ) (tradeSigns : List Int) (tv : ℕ) : Int :=
  (((itchNonzeroPairs timesSigns tradeSigns).filter (fun p => bucketCond tv p.1)).map
    (fun p => p.2)).sum

/-- `np.sum(identified_trades[condition])` for second `tv`. -/
def itchBucketSumExp (timesSigns : List ℕ) (tradeSigns identifiedTrades : List Int)
    (tv : ℕ) : Int :=
  ((((itchFilteredTimes timesSigns tradeSigns).zip identifiedTrades).filter
    (fun p => bucketCond tv p.1)).map (fun p => p.2)).sum

/-- The mask `trade_signs != 0` applied jointly to `times_signs`,
`trade_signs` and `volume_signs` (source lines 286–289; the three arrays
have equal length in every use). -/
def itchNonzeroTriples (timesSigns : List ℕ) (tradeSigns : List Int)
    (volumeSigns : List ℕ) : List ((ℕ × Int) × ℕ) :=
  ((timesSigns.zip tradeSigns).zip volumeSigns).filter (fun p => decide (p.1.2 ≠ 0))

/-- `volume_signs[trade_signs_no_0]`: the volumes at the non-zero-sign
positions. -/
def itchFilteredVolumes (timesSigns : List ℕ) (tradeSigns : List Int)
    (volumeSigns : List ℕ) : List ℕ :=
  (itchNonzeroTriples timesSigns tradeSigns volumeSigns).map (fun p => p.2)

/-- `np.sum(identified_trades[condition] * volume_signs[condition])` for
second `tv` (volumes masked by the same non-zero-sign selection before the
bucket condition is applied). -/
def itchBucketSumExpVol (timesSigns : List ℕ) (tradeSigns : List Int)
    (volumeSigns : List ℕ) (identifiedTrades : List Int) (tv : ℕ) : Int :=
  ((((itchFilteredTimes timesSigns tradeSigns).zip
      (identifiedTrades.zip (itchFilteredVolumes timesSigns tradeSigns volumeSigns))).filter
    (fun p => bucketCond tv p.1)).map (fun p => p.2.1 * (p.2.2 : Int))).sum

/-- `itch_trade_classification_eq2_data` (source lines 206–255): per-second
empirical and inferred sign series over the full session; `none` when the
`assert len(trade_signs) == len(identified_trades)` (line 234) fails. -/
def itch_trade_classification_eq2_data (timesSigns : List ℕ)
    (tradeSigns identifiedTrades : List Int) : Option (List Int × List Int) :=
  if (itchFilteredSigns timesSigns tradeSigns).length = identifiedTrades.length then
    some (fullTime.map (fun tv => sgnZ (itchBucketSumEmp timesSigns tradeSigns tv)),
          fullTime.map (fun tv =>
            sgnZ (itchBucketSumExp timesSigns tradeSigns identifiedTrades tv)))
  else none

/-- `itch_trade_classification_eq3_data` (source lines 260–313): as Eq. 2
but with the inferred series volume-weighted inside each bucket. -/
def itch_trade_classification_eq3_data (timesSigns : List ℕ) (tradeSigns : List Int)
    (volumeSigns : List ℕ) (identifiedTrades : List Int) :
    Option (List Int × List Int) :=
  if (itchFilteredSigns timesSigns tradeSigns).length = identifiedTrades.length then
    some (fullTime.map (fun tv => sgnZ (itchBucketSumEmp timesSigns tradeSigns tv)),
          fullTime.map (fun tv =>
            sgnZ (itchBucketSumExpVol timesSigns tradeSigns volumeSigns identifiedTrades tv)))
  else none

/-- The degenerate-second mask of `main` (source lines 357–372): a second
where the unweighted empirical, unweighted inferred and weighted inferred
signs are all zero is nan-masked in all three series and dropped; the
remaining triples are the scored seconds. -/
def itchKeptTriples (emp2 exp2 exp3 : List Int) : List (Int × Int × Int) :=
  (emp2.zip (exp2.zip exp3)).filter
    (fun q => !(decide (q.1 = 0) && (decide (q.2.1 = 0) && decide (q.2.2 = 0))))

/-- The integer statistics of `main` (source lines 378–390):
`(id_trades_trades_num, trade_matches, len(emp_eq2_s), physical_matches_eq2,
physical_matches_eq3)`. Both per-second match counts compare against the
*unweighted empirical* series `emp_eq2_s`. -/
def itchStatsCounts (timesSigns : List ℕ) (tradeSigns : List Int)
    (volumeSigns : List ℕ) (identifiedTrades : List Int) :
    Option (ℕ × ℕ × ℕ × ℕ × ℕ) :=
  match itch_trade_classification_eq2_data timesSigns tradeSigns identifiedTrades,
        itch_trade_classification_eq3_data timesSigns tradeSigns volumeSigns
          identifiedTrades with
  | some p2, some p3 =>
    some (tradeSigns.countP (fun s => decide (s ≠ 0)),
          ((itchFilteredSigns timesSigns tradeSigns).zip identifiedTrades).countP
            (fun q => decide (q.1 = q.2)),
          (itchKeptTriples p2.1 p2.2 p3.2).length,
          (itchKeptTriples p2.1 p2.2 p3.2).countP (fun q => decide (q.1 = q.2.1)),
          (itchKeptTriples p2.1 p2.2 p3.2).countP (fun q => decide (q.1 = q.2.2)))
  | _, _ => none

/-- Python's `round(x, 4)`. Python rounds half to even on binary floats;
the embedding rounds half up — the two agree everywhere except at exact
ties, and every property proved below holds for either convention. -/
def round4 (x : ℚ) : ℚ :=
  ((⌊x * 10000 + 1 / 2⌋ : ℤ) : ℚ) / 10000

/-- The per-day body of `main` (source lines 338–396): infer signs with
Eq. 1, bucket with Eq. 2 and Eq. 3, drop degenerate seconds, and return the
execution-level, per-second unweighted and per-second volume-weighted
accuracies. -/
def itch_main_stats (timesSigns : List ℕ) (tradeSigns : List Int)
    (volumeSigns : List ℕ) (priceSigns : List ℚ) : Option (ℚ × ℚ × ℚ) :=
  match itchStatsCounts timesSigns tradeSigns volumeSigns
      (itch_trade_classification_eq1_data tradeSigns priceSigns) with
  | none => none
  | some c =>
    some (round4 ((c.2.1 : ℚ) / (c.1 : ℚ)),
          round4 ((c.2.2.2.1 : ℚ) / (c.2.2.1 : ℚ)),
          round4 ((c.2.2.2.2 : ℚ) / (c.2.2.1 : ℚ)))

theorem bucketCond_iff (tv t : ℕ) :
    bucketCond tv t = true ↔ (1000 * tv ≤ t ∧ t < 1000 * (tv + 1)) := by
  simp [bucketCond]

/-- Fusing the degenerate-second filter with the three per-second series. -/
theorem keptTriples_map (l : List ℕ) (f g h : ℕ → Int) :
    itchKeptTriples (l.map f) (l.map g) (l.map h)
      = (l.filter (fun tv =>
          !(decide (f tv = 0) && (decide (g tv = 0) && decide (h tv = 0))))).map
          (fun tv => (f tv, g tv, h tv)) := by
  unfold itchKeptTriples
  rw [List.zip_map', List.zip_map', List.filter_map]
  rfl

theorem filter_range'_singleton (p : ℕ → Bool) :
    ∀ (n a c : ℕ), a ≤ c → c < a + n →
      (∀ t, a ≤ t → t < a + n → (p t = true ↔ t = c)) →
      (List.range' a n).filter p = [c] := by
  intro n
  induction n with
  | zero => intro a c h1 h2 _; omega
  | succ n ih =>
    intro a c h1 h2 hp
    rw [List.range'_succ, List.filter_cons]
    by_cases hac : a = c
    · rw [if_pos (by rw [hp a (le_refl a) (by omega)]; exact hac), hac]
      rw [List.filter_eq_nil_iff.mpr ?_]
      intro t ht hpt
      rw [List.mem_range'] at ht
      obtain ⟨i, hi, hti⟩ := ht
      rw [hp t (by omega) (by omega)] at hpt
      omega
    · rw [if_neg (by rw [hp a (le_refl a) (by omega)]; exact hac)]
      exact ih (a + 1) c (by omega) (by omega) (fun t ht1 ht2 => hp t (by omega) (by omega))

/-- The single-second evaluation used for the C9 witness input: two
executions at 100 ms and 200 ms past second 34800 with signs `+1, −1` and
volumes `1, 5`. Empirical bucket sums vanish at every second. -/
theorem c9_bucket_emp (tv : ℕ) :
    itchBucketSumEmp [34800100, 34800200] [1, -1] tv = 0 := by
  by_cases htv : tv = 34800
  · subst htv
    decide
  · have h1 : bucketCond tv 34800100 = false := by
      rw [← Bool.not_eq_true, bucketCond_iff]
      omega
    have h2 : bucketCond tv 34800200 = false := by
      rw [← Bool.not_eq_true, bucketCond_iff]
      omega
    show ((List.filter (fun p => bucketCond tv p.1)
      [((34800100 : ℕ), (1 : Int)), (34800200, -1)]).map (fun p => p.2)).sum = 0
    rw [List.filter_cons, List.filter_cons]
    simp only [h1, h2]
    rfl

/-- Inferred (unweighted) bucket sums vanish as well when the inferred
signs equal the empirical ones. -/
theorem c9_bucket_exp (tv : ℕ) :
    itchBucketSumExp [34800100, 34800200] [1, -1] [1, -1] tv = 0 := by
  by_cases htv : tv = 34800
  · subst htv
    decide
  · have h1 : bucketCond tv 34800100 = false := by
      rw [← Bool.not_eq_true, bucketCond_iff]
      omega
    have h2 : bucketCond tv 34800200 = false := by
      rw [← Bool.not_eq_true, bucketCond_iff]
      omega
    show ((List.filter (fun p => bucketCond tv p.1)
      [((34800100 : ℕ), (1 : Int)), (34800200, -1)]).map (fun p => p.2)).sum = 0
    rw [List.filter_cons, List.filter_cons]
    simp only [h1, h2]
    rfl

/-- The volume-weighted inferred bucket sum is `1·1 + (−1)·5 = −4` at
second 34800 and `0` elsewhere. -/
theorem c9_bucket_exp3 (tv : ℕ) :
    itchBucketSumExpVol [34800100, 34800200] [1, -1] [1, 5] [1, -1] tv
      = if tv = 34800 then -4 else 0 := by
  by_cases htv : tv = 34800
  · subst htv
    rw [if_pos rfl]
    decide
  · rw [if_neg htv]
    have h1 : bucketCond tv 34800100 = false := by
      rw [← Bool.not_eq_true, bucketCond_iff]
      omega
    have h2 : bucketCond tv 34800200 = false := by
      rw [← Bool.not_eq_true, bucketCond_iff]
      omega
    show ((List.filter (fun p => bucketCond tv p.1)
      [((34800100 : ℕ), ((1 : Int), (1 : ℕ))), (34800200, (-1, 5))]).map
        (fun p => p.2.1 * (p.2.2 : Int))).sum = 0
    rw [List.filter_cons, List.filter_cons]
    simp only [h1, h2]
    rfl

/-- Integer statistics of `main` at the witness day: 2 non-zero-sign
executions, 2 execution-level matches, 1 scored second, 1 unweighted match,
0 weighted matches. -/
theorem c9_stats_counts :
    itchStatsCounts [34800100, 34800200] [1, -1] [1, 5] [1, -1]
      = some (2, 2, 1, 1, 0) := by
  have h2 : itch_trade_classification_eq2_data [34800100, 34800200] [1, -1] [1, -1]
      = some (fullTime.map (fun tv =>
                sgnZ (itchBucketSumEmp [34800100, 34800200] [1, -1] tv)),
              fullTime.map (fun tv =>
                sgnZ (itchBucketSumExp [34800100, 34800200] [1, -1] [1, -1] tv))) := by
    unfold itch_trade_classification_eq2_data
    rw [if_pos (by rfl)]
  have h3 : itch_trade_classification_eq3_data [34800100, 34800200] [1, -1] [1, 5] [1, -1]
      = some (fullTime.map (fun tv =>
                sgnZ (itchBucketSumEmp [34800100, 34800200] [1, -1] tv)),
              fullTime.map (fun tv =>
                sgnZ (itchBucketSumExpVol [34800100, 34800200] [1, -1] [1, 5] [1, -1] tv))) := by
    unfold itch_trade_classification_eq3_data
    rw [if_pos (by rfl)]
  have hkept : itchKeptTriples
      (fullTime.map (fun tv => sgnZ (itchBucketSumEmp [34800100, 34800200] [1, -1] tv)))
      (fullTime.map (fun tv => sgnZ (itchBucketSumExp [34800100, 34800200] [1, -1] [1, -1] tv)))
      (fullTime.map (fun tv =>
        sgnZ (itchBucketSumExpVol [34800100, 34800200] [1, -1] [1, 5] [1, -1] tv)))
      = [(0, 0, -1)] := by
    rw [keptTriples_map, show fullTime = List.range' 34800 22200 from rfl,
      filter_range'_singleton _ 22200 34800 34800 (le_refl _) (by omega) ?_]
    · simp only [List.map_cons, List.map_nil, c9_bucket_emp, c9_bucket_exp, c9_bucket_exp3]
      decide
    · intro t ht1 ht2
      simp only [c9_bucket_emp, c9_bucket_exp, c9_bucket_exp3]
      by_cases h : t = 34800
      · subst h
        simp [sgnZ]
      · simp [h, sgnZ]
  simp only [itchStatsCounts, h2, h3, hkept]
  decide

theorem round4_nonneg (x : ℚ) (h : 0 ≤ x) : 0 ≤ round4 x := by
  unfold round4
  apply div_nonneg _ (by norm_num)
  have h0 : (0 : ℤ) ≤ ⌊x * 10000 + 1 / 2⌋ := Int.le_floor.mpr (by push_cast; linarith)
  exact_mod_cast h0

theorem round4_le_one (x : ℚ) (h : x ≤ 1) : round4 x ≤ 1 := by
  unfold round4
  rw [div_le_one (by norm_num)]
  have h1 : ⌊x * 10000 + 1 / 2⌋ ≤ ⌊(1 : ℚ) * 10000 + 1 / 2⌋ :=
    Int.floor_le_floor (by nlinarith)
  have h2 : ⌊(1 : ℚ) * 10000 + 1 / 2⌋ = 10000 := by
    rw [Int.floor_eq_iff]
    norm_num
  have h3 : ⌊x * 10000 + 1 / 2⌋ ≤ 10000 := h1.trans_eq h2
  exact_mod_cast h3

theorem round4_one : round4 1 = 1 := by
  unfold round4
  rw [show ⌊(1 : ℚ) * 10000 + 1 / 2⌋ = 10000 from by
    rw [Int.floor_eq_iff]
    norm_num]
  norm_num

/-- C9 counterexample: two same-second executions with empirical signs
`+1, −1`, volumes `1, 5` and prices `2, 1`. The tick rule infers exactly the
empirical signs (first conjunct: the inferred sequence is *identical* to
the empirical one), the execution-level and per-second unweighted
accuracies are `1.0` — but the volume-weighted accuracy is `0`, not `1.0`:
the weighted series compares `sign(1·1 + (−1)·5) = −1` against the
unweighted empirical `sign(1 − 1) = 0` at the single scored second. -/
theorem C9_counterexample :
    itch_trade_classification_eq1_data [1, -1] [2, 1]
      = itchFilteredSigns [34800100, 34800200] [1, -1] ∧
    itch_main_stats [34800100, 34800200] [1, -1] [1, 5] [2, 1] = some (1, 1, 0) ∧
    ((0 : ℚ) ≠ 1) := by
  have hid : itch_trade_classification_eq1_data [1, -1] [2, 1] = [1, -1] := by
    norm_num [itch_trade_classification_eq1_data, eq1Go, eq1Val, eq1Prev, sgnQ,
      List.filterMap]
  refine ⟨by rw [hid]; rfl, ?_, by norm_num⟩
  unfold itch_main_stats
  rw [hid, c9_stats_counts]
  show some (round4 ((2 : ℚ) / 2), round4 ((1 : ℚ) / 1), round4 ((0 : ℚ) / 1)) = some (1, 1, 0)
  rw [show ((2 : ℚ) / 2) = 1 by norm_num, show ((1 : ℚ) / 1) = 1 by norm_num,
    show ((0 : ℚ) / 1) = 0 by norm_num, round4_one,
    show round4 0 = 0 from by
      unfold round4
      rw [show ⌊(0 : ℚ) * 10000 + 1 / 2⌋ = 0 from by
        rw [Int.floor_eq_iff]
        norm_num]
      norm_num]

theorem filteredSigns_length_le :
    ∀ (timesSigns : List ℕ) (tradeSigns : List Int),
      (itchFilteredSigns timesSigns tradeSigns).length
        ≤ tradeSigns.countP (fun s => decide (s ≠ 0)) := by
  intro ts
  induction ts with
  | nil =>
    intro ss
    show (((List.zip [] ss).filter _).map _).length ≤ _
    rw [List.zip_nil_left]
    exact Nat.zero_le _
  | cons t ts ih =>
    intro ss
    cases ss with
    | nil => exact Nat.zero_le _
    | cons s ss =>
      show ((((t :: ts).zip (s :: ss)).filter (fun p => decide (p.2 ≠ 0))).map
        (fun p => p.2)).length ≤ _
      rw [List.zip_cons_cons, List.filter_cons, List.countP_cons]
      have hih := ih ss
      simp only [itchFilteredSigns, itchNonzeroPairs] at hih
      by_cases hs : s ≠ 0
      · rw [if_pos (by simpa using hs), if_pos (by simpa using hs), List.map_cons,
          List.length_cons]
        omega
      · rw [if_neg (by simpa using hs), if_neg (by simpa using hs)]
        omega

theorem filteredSigns_length_eq :
    ∀ (timesSigns : List ℕ) (tradeSigns : List Int),
      tradeSigns.length ≤ timesSigns.length →
      (itchFilteredSigns timesSigns tradeSigns).length
        = tradeSigns.countP (fun s => decide (s ≠ 0)) := by
  intro ts
  induction ts with
  | nil =>
    intro ss h
    simp only [List.length_nil, Nat.le_zero, List.length_eq_zero] at h
    subst h
    rfl
  | cons t ts ih =>
    intro ss h
    cases ss with
    | nil => rfl
    | cons s ss =>
      show ((((t :: ts).zip (s :: ss)).filter (fun p => decide (p.2 ≠ 0))).map
        (fun p => p.2)).length = _
      rw [List.zip_cons_cons, List.filter_cons, List.countP_cons]
      have hih := ih ss (by simpa using h)
      simp only [itchFilteredSigns, itchNonzeroPairs] at hih
      by_cases hs : s ≠ 0
      · rw [if_pos (by simpa using hs), if_pos (by simpa using hs), List.map_cons,
          List.length_cons]
        omega
      · rw [if_neg (by simpa using hs), if_neg (by simpa using hs)]
        omega

theorem countP_zip_self (l : List Int) :
    (l.zip l).countP (fun q => decide (q.1 = q.2)) = l.length := by
  induction l with
  | nil => rfl
  | cons a l ih =>
    rw [List.zip_cons_cons, List.countP_cons]
    simp [ih]

theorem zip_self_triple_fst :
    ∀ (l m : List Int), ∀ q ∈ l.zip (l.zip m), q.1 = q.2.1 := by
  intro l
  induction l with
  | nil => intro m q hq; exact absurd hq (by simp)
  | cons a l ih =>
    intro m q hq
    cases m with
    | nil => exact absurd hq (by simp)
    | cons b m =>
      rw [List.zip_cons_cons, List.zip_cons_cons] at hq
      rcases List.mem_cons.mp hq with hq | hq
      · rw [hq]
      · exact ih m q hq

/-- When the inferred sequence is the empirical one, the inferred
per-second bucket sum coincides with the empirical one. -/
theorem bucketSumExp_self (timesSigns : List ℕ) (tradeSigns : List Int) (tv : ℕ) :
    itchBucketSumExp timesSigns tradeSigns (itchFilteredSigns timesSigns tradeSigns) tv
      = itchBucketSumEmp timesSigns tradeSigns tv := by
  unfold itchBucketSumExp itchBucketSumEmp itchFilteredTimes itchFilteredSigns
  rw [List.zip_map']
  simp

/-- C9 (amended): for any day with at least one non-zero-sign execution and
at least one scored second, all three accuracy statistics of `main` lie in
`[0, 1]`; when the inferred sign sequence is identical to the (non-zero)
empirical sign sequence, the execution-level and the per-second unweighted
accuracies equal exactly `1.0`. The volume-weighted accuracy need *not*
equal `1.0` under that identity, because it compares the volume-weighted
inferred per-second series against the *unweighted* empirical per-second
series (the counterexample). -/
theorem C9_accuracy (timesSigns : List ℕ) (tradeSigns : List Int)
    (volumeSigns : List ℕ) (priceSigns : List ℚ) (n m sc m2 m3 : ℕ)
    (hts : tradeSigns.length ≤ timesSigns.length)
    (hc : itchStatsCounts timesSigns tradeSigns volumeSigns
        (itch_trade_classification_eq1_data tradeSigns priceSigns)
      = some (n, m, sc, m2, m3))
    (hn : n ≠ 0) (hsc : sc ≠ 0) :
    itch_main_stats timesSigns tradeSigns volumeSigns priceSigns
      = some (round4 ((m : ℚ) / n), round4 ((m2 : ℚ) / sc), round4 ((m3 : ℚ) / sc)) ∧
    (0 ≤ round4 ((m : ℚ) / n) ∧ round4 ((m : ℚ) / n) ≤ 1) ∧
    (0 ≤ round4 ((m2 : ℚ) / sc) ∧ round4 ((m2 : ℚ) / sc) ≤ 1) ∧
    (0 ≤ round4 ((m3 : ℚ) / sc) ∧ round4 ((m3 : ℚ) / sc) ≤ 1) ∧
    (itch_trade_classification_eq1_data tradeSigns priceSigns
        = itchFilteredSigns timesSigns tradeSigns →
      round4 ((m : ℚ) / n) = 1 ∧ round4 ((m2 : ℚ) / sc) = 1) := by
  have hc0 := hc
  unfold itchStatsCounts at hc
  split at hc
  case _ p2 p3 h2 h3 =>
    have h5 := Option.some.inj hc
    have hn' := congrArg (fun q : ℕ × ℕ × ℕ × ℕ × ℕ => q.1) h5
    have hm' := congrArg (fun q : ℕ × ℕ × ℕ × ℕ × ℕ => q.2.1) h5
    have hsc' := congrArg (fun q : ℕ × ℕ × ℕ × ℕ × ℕ => q.2.2.1) h5
    have hm2' := congrArg (fun q : ℕ × ℕ × ℕ × ℕ × ℕ => q.2.2.2.1) h5
    have hm3' := congrArg (fun q : ℕ × ℕ × ℕ × ℕ × ℕ => q.2.2.2.2) h5
    simp only at hn' hm' hsc' hm2' hm3'
    have hmn : m ≤ n := by
      rw [← hn', ← hm']
      calc ((itchFilteredSigns timesSigns tradeSigns).zip
            (itch_trade_classification_eq1_data tradeSigns priceSigns)).countP
            (fun q => decide (q.1 = q.2))
          ≤ ((itchFilteredSigns timesSigns tradeSigns).zip
            (itch_trade_classification_eq1_data tradeSigns priceSigns)).length :=
            List.countP_le_length _
        _ ≤ (itchFilteredSigns timesSigns tradeSigns).length := by
            rw [List.length_zip]
            exact Nat.min_le_left ..
        _ ≤ tradeSigns.countP (fun s => decide (s ≠ 0)) := filteredSigns_length_le ..
    have hm2sc : m2 ≤ sc := by
      rw [← hsc', ← hm2']
      exact List.countP_le_length _
    have hm3sc : m3 ≤ sc := by
      rw [← hsc', ← hm3']
      exact List.countP_le_length _
    have hnpos : (0 : ℚ) < (n : ℚ) := by
      exact_mod_cast Nat.pos_of_ne_zero hn
    have hscpos : (0 : ℚ) < (sc : ℚ) := by
      exact_mod_cast Nat.pos_of_ne_zero hsc
    have hb1 : (0 : ℚ) ≤ (m : ℚ) / n ∧ (m : ℚ) / n ≤ 1 := by
      constructor
      · exact div_nonneg (Nat.cast_nonneg m) (Nat.cast_nonneg n)
      · rw [div_le_one hnpos]
        exact_mod_cast hmn
    have hb2 : (0 : ℚ) ≤ (m2 : ℚ) / sc ∧ (m2 : ℚ) / sc ≤ 1 := by
      constructor
      · exact div_nonneg (Nat.cast_nonneg m2) (Nat.cast_nonneg sc)
      · rw [div_le_one hscpos]
        exact_mod_cast hm2sc
    have hb3 : (0 : ℚ) ≤ (m3 : ℚ) / sc ∧ (m3 : ℚ) / sc ≤ 1 := by
      constructor
      · exact div_nonneg (Nat.cast_nonneg m3) (Nat.cast_nonneg sc)
      · rw [div_le_one hscpos]
        exact_mod_cast hm3sc
    refine ⟨?_, ⟨round4_nonneg _ hb1.1, round4_le_one _ hb1.2⟩,
      ⟨round4_nonneg _ hb2.1, round4_le_one _ hb2.2⟩,
      ⟨round4_nonneg _ hb3.1, round4_le_one _ hb3.2⟩, ?_⟩
    · unfold itch_main_stats
      simp only [hc0]
    · intro hid
      constructor
      · have hmn' : m = n := by
          rw [← hm', ← hn', hid, countP_zip_self,
            filteredSigns_length_eq timesSigns tradeSigns hts]
        rw [hmn', div_self (ne_of_gt hnpos), round4_one]
      · have hp2 : p2 = (fullTime.map (fun tv =>
            sgnZ (itchBucketSumEmp timesSigns tradeSigns tv)),
            fullTime.map (fun tv => sgnZ (itchBucketSumExp timesSigns tradeSigns
              (itch_trade_classification_eq1_data tradeSigns priceSigns) tv))) := by
          unfold itch_trade_classification_eq2_data at h2
          split at h2
          · exact (Option.some.inj h2).symm
          · exact absurd h2 (by simp)
        have hexpemp : fullTime.map (fun tv => sgnZ (itchBucketSumExp timesSigns tradeSigns
            (itch_trade_classification_eq1_data tradeSigns priceSigns) tv))
            = fullTime.map (fun tv => sgnZ (itchBucketSumEmp timesSigns tradeSigns tv)) := by
          rw [hid]
          exact List.map_congr_left (fun tv _ => by rw [bucketSumExp_self])
        have hall : ∀ q ∈ itchKeptTriples p2.1 p2.2 p3.2, decide (q.1 = q.2.1) = true := by
          intro q hq
          rw [decide_eq_true_eq]
          have hq' := List.mem_of_mem_filter hq
          rw [hp2] at hq'
          simp only [hexpemp] at hq'
          exact zip_self_triple_fst _ _ q hq'
        have hm2sc' : m2 = sc := by
          rw [← hm2', ← hsc']
          exact List.countP_eq_length.mpr hall
        rw [hm2sc', div_self (ne_of_gt hscpos), round4_one]
  case _ hmm =>
    exact absurd hc (by simp)

/-- Witness for C9 (amended) at the counterexample day: accuracies
`(1, 1, 0)`; all bounds hold and, the inferred sequence being identical to
the empirical one, the execution-level and unweighted accuracies are `1`. -/
theorem C9_accuracy_witness :
    itch_main_stats [34800100, 34800200] [1, -1] [1, 5] [2, 1]
      = some (round4 ((2 : ℚ) / 2), round4 ((1 : ℚ) / 1), round4 ((0 : ℚ) / 1)) ∧
    (0 ≤ round4 ((2 : ℚ) / 2) ∧ round4 ((2 : ℚ) / 2) ≤ 1) ∧
    (0 ≤ round4 ((1 : ℚ) / 1) ∧ round4 ((1 : ℚ) / 1) ≤ 1) ∧
    (0 ≤ round4 ((0 : ℚ) / 1) ∧ round4 ((0 : ℚ) / 1) ≤ 1) ∧
    (itch_trade_classification_eq1_data [1, -1] [2, 1]
        = itchFilteredSigns [34800100, 34800200] [1, -1] →
      round4 ((2 : ℚ) / 2) = 1 ∧ round4 ((1 : ℚ) / 1) = 1) := by
  have hid : itch_trade_classification_eq1_data [1, -1] [2, 1] = [1, -1] := by
    norm_num [itch_trade_classification_eq1_data, eq1Go, eq1Val, eq1Prev, sgnQ,
      List.filterMap]
  have hc : itchStatsCounts [34800100, 34800200] [1, -1] [1, 5]
      (itch_trade_classification_eq1_data [1, -1] [2, 1]) = some (2, 2, 1, 1, 0) := by
    rw [hid]
    exact c9_stats_counts
  exact C9_accuracy [34800100, 34800200] [1, -1] [1, 5] [2, 1] 2 2 1 1 0
    (by decide) hc (by decide) (by decide)
